import Mathlib

/-!
Shallow embedding of the deer-defense networking layer
(src/socket.rs, src/common.rs, src/timer.rs, src/entities.rs,
src/server.rs, src/main.rs) and proofs about its specification.

Conventions:
* `Duration` is modelled as a number of nanoseconds (`Nat`).
* `f32` fields are modelled by their 32-bit big-endian bit patterns
  (`Nat` values `< 2^32`); the codec only moves bytes, it never
  performs floating-point arithmetic, so this is exact.  Floating-point
  computations of the simulation (entity movement, position deltas,
  distance tests) are taken as opaque function parameters.
* Rust `i32` is modelled as `Int`; serialization goes through the two's
  complement residue mod `2^32`; the entity-id counter increments with
  wrapping (release-mode) `i32` semantics.
* A fallible Rust computation is `RRes α`: `ok`, a typed `err`
  (socket.rs `Error`), or `panic` — the latter covering slice-index
  panics, `unwrap` on `Err`/`None`, missing-key indexing of a `HashMap`,
  and `transmute` to an out-of-range enum value (all of which abort the
  process and in particular are *not* typed errors).
* `HashMap`s are modelled as association lists; where the Rust code
  iterates a `HashMap` (unspecified order) the model iterates the list.
-/

namespace DeerDefense

/-! ## Bytes and 32-bit values -/

/-- Big-endian bytes of a 32-bit word (Rust `to_be_bytes`). -/
def u32ToBytes (w : Nat) : List Nat :=
  [w / 16777216 % 256, w / 65536 % 256, w / 256 % 256, w % 256]

/-- Rebuild a 32-bit word from four big-endian bytes (`from_be_bytes`). -/
def bytesToU32 (b0 b1 b2 b3 : Nat) : Nat :=
  ((b0 * 256 + b1) * 256 + b2) * 256 + b3

/-- Two's-complement residue of an `i32` value: the `u32` whose bytes
`i32::to_be_bytes` emits. -/
def i32ToU32 (i : Int) : Nat := (i % (4294967296 : Int)).toNat

/-- Big-endian bytes of an `i32` (`i32::to_be_bytes`). -/
def i32be (i : Int) : List Nat := u32ToBytes (i32ToU32 i)

/-- Reading a `u32` bit pattern back as an `i32` (`i32::from_be_bytes`). -/
def u32ToI32 (w : Nat) : Int :=
  if w < 2147483648 then (w : Int) else (w : Int) - 4294967296

/-- `i32` range predicate. -/
def isI32 (i : Int) : Prop := -(2147483648) ≤ i ∧ i < 2147483648

instance (i : Int) : Decidable (isI32 i) := by unfold isI32; infer_instance

/-- Wrapping `i32` arithmetic (release-mode overflow semantics of the
entity-id counter). -/
def wrap32 (i : Int) : Int := (i + 2147483648) % 4294967296 - 2147483648

/-! ## socket.rs: errors, results, opcodes, packets -/

/-- socket.rs `Error`. -/
inductive Error where
  | NotEnoughData
  | BadAddress
  | BadOpcode
  | IoError
  deriving DecidableEq, Repr

/-- Result of a Rust computation: success, a typed error, or an abort
(panic / UB), which is precisely *not* a typed error. -/
inductive RRes (α : Type) where
  | ok (a : α)
  | err (e : Error)
  | panic
  deriving DecidableEq, Repr

namespace RRes

def bind {α β : Type} : RRes α → (α → RRes β) → RRes β
  | .ok a, f => f a
  | .err e, _ => .err e
  | .panic, _ => .panic

instance : Monad RRes where
  pure := .ok
  bind := bind

/-- Rust `unwrap`: panics unless `ok`. -/
def unwrap {α : Type} : RRes α → RRes α
  | .ok a => .ok a
  | .err _ => .panic
  | .panic => .panic

end RRes

/-- socket.rs opcodes: `Hello = 0`, `Port = 1`, `Ping = 2`, `Pong = 3`,
`UserDefined = 4`; the common.rs application opcodes start at
`UserDefined`: `EntitySpawn = 4`, `EntityUpdate = 5`, `EntityDestroy = 6`. -/
def opHello : Nat := 0
def opPort : Nat := 1
def opPing : Nat := 2
def opPong : Nat := 3
def opEntitySpawn : Nat := 4
def opEntityUpdate : Nat := 5
def opEntityDestroy : Nat := 6

/-- socket.rs `Packet`: an opcode byte and a payload. -/
structure Packet where
  opcode : Nat
  data : List Nat
  deriving DecidableEq, Repr

/-- `data[i..i+4]` followed by `from_be_bytes`: panics (slice index out
of range) when the payload is too short — it never reads out of bounds. -/
def sliceBE4 (data : List Nat) (i : Nat) : RRes Nat :=
  if i + 4 ≤ data.length then
    .ok (bytesToU32 (data.getD i 0) (data.getD (i + 1) 0) (data.getD (i + 2) 0)
      (data.getD (i + 3) 0))
  else
    .panic

/-- `data[i]` single-byte access. -/
def byteAt (data : List Nat) (i : Nat) : RRes Nat :=
  if i < data.length then .ok (data.getD i 0) else .panic

/-! ## common.rs: kinds, sprites, payload types and their codec -/

/-- common.rs `EntityKind` (`#[repr(u8)]`, values 0..4). -/
inductive EntityKind where
  | Tile
  | Forest
  | Player
  | PlayerProjectile
  | Enemy
  deriving DecidableEq, Repr

def EntityKind.toByte : EntityKind → Nat
  | .Tile => 0
  | .Forest => 1
  | .Player => 2
  | .PlayerProjectile => 3
  | .Enemy => 4

/-- `transmute::<u8, EntityKind>`: undefined behaviour (modelled as an
abort) on a byte outside `0..=4`. -/
def byteToKind (b : Nat) : RRes EntityKind :=
  match b with
  | 0 => .ok .Tile
  | 1 => .ok .Forest
  | 2 => .ok .Player
  | 3 => .ok .PlayerProjectile
  | 4 => .ok .Enemy
  | _ => .panic

/-- common.rs `SpriteName`. -/
inductive SpriteName where
  | None
  | Tile
  | Forest
  | Deer
  | Spit
  | Hunter
  deriving DecidableEq, Repr

/-- `engine_2d::math::Vec2`, componentwise `f32` bit patterns. -/
structure Vec2 where
  x : Nat
  y : Nat
  deriving DecidableEq, Repr

def Vec2.Valid (v : Vec2) : Prop := v.x < 4294967296 ∧ v.y < 4294967296

instance (v : Vec2) : Decidable v.Valid := by unfold Vec2.Valid; infer_instance

/-- common.rs `EntitySpawn`. -/
structure EntitySpawn where
  id : Int
  kind : EntityKind
  pos : Vec2
  scale : Nat
  speed : Nat
  dir : Vec2
  deriving DecidableEq, Repr

/-- A representable `EntitySpawn` value: `i32` id, 32-bit `f32` patterns. -/
def EntitySpawn.Valid (e : EntitySpawn) : Prop :=
  isI32 e.id ∧ e.pos.Valid ∧ e.scale < 4294967296 ∧ e.speed < 4294967296 ∧ e.dir.Valid

instance (e : EntitySpawn) : Decidable e.Valid := by unfold EntitySpawn.Valid; infer_instance

/-- `From<EntitySpawn> for Packet` (common.rs): 29-byte big-endian payload. -/
def EntitySpawn.toPacket (e : EntitySpawn) : Packet :=
  ⟨opEntitySpawn,
    i32be e.id ++ [e.kind.toByte] ++ u32ToBytes e.pos.x ++ u32ToBytes e.pos.y ++
      u32ToBytes e.scale ++ u32ToBytes e.speed ++ u32ToBytes e.dir.x ++ u32ToBytes e.dir.y⟩

/-- `TryFrom<Packet> for EntitySpawn` (common.rs): `BadOpcode` on a wrong
opcode, otherwise fixed-offset slice reads (which panic when the payload
is shorter than 29 bytes) and a `transmute` of the kind byte. -/
def EntitySpawn.tryFrom (p : Packet) : RRes EntitySpawn :=
  if p.opcode ≠ opEntitySpawn then .err .BadOpcode
  else
    RRes.bind (sliceBE4 p.data 0) fun idw =>
    RRes.bind (byteAt p.data 4) fun kb =>
    RRes.bind (byteToKind kb) fun kind =>
    RRes.bind (sliceBE4 p.data 5) fun x =>
    RRes.bind (sliceBE4 p.data 9) fun y =>
    RRes.bind (sliceBE4 p.data 13) fun scale =>
    RRes.bind (sliceBE4 p.data 17) fun speed =>
    RRes.bind (sliceBE4 p.data 21) fun dx =>
    RRes.bind (sliceBE4 p.data 25) fun dy =>
    .ok ⟨u32ToI32 idw, kind, ⟨x, y⟩, scale, speed, ⟨dx, dy⟩⟩

/-- common.rs `EntityUpdate`. -/
structure EntityUpdate where
  id : Int
  pos : Vec2
  deriving DecidableEq, Repr

def EntityUpdate.Valid (e : EntityUpdate) : Prop := isI32 e.id ∧ e.pos.Valid

instance (e : EntityUpdate) : Decidable e.Valid := by unfold EntityUpdate.Valid; infer_instance

/-- `From<EntityUpdate> for Packet`: 12-byte big-endian payload. -/
def EntityUpdate.toPacket (e : EntityUpdate) : Packet :=
  ⟨opEntityUpdate, i32be e.id ++ u32ToBytes e.pos.x ++ u32ToBytes e.pos.y⟩

/-- `TryFrom<Packet> for EntityUpdate`. -/
def EntityUpdate.tryFrom (p : Packet) : RRes EntityUpdate :=
  if p.opcode ≠ opEntityUpdate then .err .BadOpcode
  else
    RRes.bind (sliceBE4 p.data 0) fun idw =>
    RRes.bind (sliceBE4 p.data 4) fun x =>
    RRes.bind (sliceBE4 p.data 8) fun y =>
    .ok ⟨u32ToI32 idw, ⟨x, y⟩⟩

/-- common.rs `EntityDestroy`. -/
structure EntityDestroy where
  id : Int
  deriving DecidableEq, Repr

def EntityDestroy.Valid (e : EntityDestroy) : Prop := isI32 e.id

instance (e : EntityDestroy) : Decidable e.Valid := by unfold EntityDestroy.Valid; infer_instance

/-- `From<EntityDestroy> for Packet`: 4-byte big-endian payload. -/
def EntityDestroy.toPacket (e : EntityDestroy) : Packet :=
  ⟨opEntityDestroy, i32be e.id⟩

/-- `TryFrom<Packet> for EntityDestroy`. -/
def EntityDestroy.tryFrom (p : Packet) : RRes EntityDestroy :=
  if p.opcode ≠ opEntityDestroy then .err .BadOpcode
  else
    RRes.bind (sliceBE4 p.data 0) fun idw =>
    .ok ⟨u32ToI32 idw⟩

/-! ## timer.rs -/

/-- common.rs `TIMEOUT`: 3 seconds, in nanoseconds. -/
def TIMEOUT : Nat := 3000000000

/-- timer.rs `Timer`. -/
structure Timer where
  accumulator : Nat
  threshold : Nat
  deriving DecidableEq, Repr

def Timer.new (threshold : Nat) : Timer := ⟨0, threshold⟩

def Timer.reset (t : Timer) : Timer := { t with accumulator := 0 }

/-- timer.rs `Timer::tick`: accumulate `dt`, report whether the
accumulator reached the threshold, and on firing subtract the threshold
(keeping the remainder). -/
def Timer.tick (t : Timer) (dt : Nat) : Bool × Timer :=
  let acc := t.accumulator + dt
  if t.threshold ≤ acc then (true, ⟨acc - t.threshold, t.threshold⟩)
  else (false, ⟨acc, t.threshold⟩)

/-! ## Association lists (model of `std::collections::HashMap`) -/

/-- `HashMap::get`. -/
def alLookup {κ β : Type} [DecidableEq κ] (l : List (κ × β)) (k : κ) : Option β :=
  (l.find? (fun x => x.1 = k)).map Prod.snd

/-- `HashMap::insert`: replace the value at an existing key, else add. -/
def alInsert {κ β : Type} [DecidableEq κ] (l : List (κ × β)) (k : κ) (v : β) :
    List (κ × β) :=
  if l.any (fun x => x.1 = k) then
    l.map (fun x => if x.1 = k then (k, v) else x)
  else
    l ++ [(k, v)]

/-- `HashMap::remove` (value-dropping view). -/
def alRemove {κ β : Type} [DecidableEq κ] (l : List (κ × β)) (k : κ) : List (κ × β) :=
  l.filter (fun x => x.1 ≠ k)

/-- Mutate the value stored at a key, when present. -/
def alUpdate {κ β : Type} [DecidableEq κ] (l : List (κ × β)) (k : κ) (f : β → β) :
    List (κ × β) :=
  l.map (fun x => if x.1 = k then (x.1, f x.2) else x)

/-- `map[&k]` (the `Index` impl): panics when the key is absent. -/
def alIndex {κ β : Type} [DecidableEq κ] (l : List (κ × β)) (k : κ) : RRes β :=
  match alLookup l k with
  | some v => .ok v
  | none => .panic

/-! ## entities.rs -/

/-- The data of a `BaseEntity` (the rendering sprite is reduced to its
name; `alive` starts `true`). -/
structure EEntity where
  alive : Bool
  pos : Vec2
  scale : Nat
  speed : Nat
  rotation : Nat
  dir : Vec2
  sprite : Option SpriteName
  kind : EntityKind
  deriving DecidableEq, Repr

/-- `Entity::kill`. -/
def EEntity.kill (e : EEntity) : EEntity := { e with alive := false }

/-- entities.rs `EntityManager`: loaded sprites, the id-tagged entity
list, and the monotone id counter. -/
structure EntityManager where
  sprites : List SpriteName
  entities : List (Int × EEntity)
  counter : Int
  deriving DecidableEq, Repr

/-- `EntityManager::default()`: empty, counter 0. -/
def EntityManager.default : EntityManager := ⟨[], [], 0⟩

/-- `EntityManager::iter`: alive entities only. -/
def EntityManager.iter (m : EntityManager) : List (Int × EEntity) :=
  m.entities.filter (fun e => e.2.alive)

/-- `EntityManager::emplace_entity`: hand out the current counter as the
id, bump the counter, push the entity. -/
def EntityManager.emplaceEntity (m : EntityManager) (e : EEntity) : EntityManager × Int :=
  let id := m.counter
  (⟨m.sprites, m.entities ++ [(id, e)], wrap32 (m.counter + 1)⟩, id)

/-- `EntityManager::spawn`. -/
def EntityManager.spawn (m : EntityManager) (pos : Vec2) (scale speed rotation : Nat)
    (dir : Vec2) (sprite : SpriteName) (kind : EntityKind) : EntityManager × Int :=
  let spr := if sprite ∈ m.sprites then some sprite else none
  m.emplaceEntity ⟨true, pos, scale, speed, rotation, dir, spr, kind⟩

/-- Kill the first entry carrying the given id. -/
def killFirst (id : Int) : List (Int × EEntity) → List (Int × EEntity)
  | [] => []
  | x :: xs => if x.1 = id then (x.1, x.2.kill) :: xs else x :: killFirst id xs

/-- `EntityManager::destroy`: `find(..).unwrap().kill()` — panics when
no entry carries the id, otherwise marks the first match dead (the entry
itself is kept in the list). -/
def EntityManager.destroy (m : EntityManager) (id : Int) : RRes EntityManager :=
  if m.entities.any (fun x => x.1 = id) then
    .ok ⟨m.sprites, killFirst id m.entities, m.counter⟩
  else .panic

/-- Set the position of the first entry carrying the given id. -/
def setPosFirst (id : Int) (pos : Vec2) : List (Int × EEntity) → List (Int × EEntity)
  | [] => []
  | x :: xs => if x.1 = id then (x.1, { x.2 with pos := pos }) :: xs else x :: setPosFirst id pos xs

/-- `EntityManager::set_position`: `if let Some` — silently does nothing
when the id is absent. -/
def EntityManager.setPosition (m : EntityManager) (id : Int) (pos : Vec2) : EntityManager :=
  ⟨m.sprites, setPosFirst id pos m.entities, m.counter⟩

/-- `EntityManager::get`: looks up the entry with the id but then uses
that *id* as a vector index (`self.entities[slot as usize]`), panicking
when it is negative or out of range. -/
def EntityManager.get (m : EntityManager) (id : Int) : RRes EEntity :=
  match m.entities.find? (fun x => x.1 = id) with
  | none => .panic
  | some x =>
      let slot := x.1
      if h : 0 ≤ slot ∧ slot.toNat < m.entities.length then
        .ok (m.entities.get ⟨slot.toNat, h.2⟩).2
      else .panic

/-- `EntityManager::get_mut` followed by a field mutation: same indexing
quirk as `get`. -/
def EntityManager.modifyAt (m : EntityManager) (id : Int) (f : EEntity → EEntity) :
    RRes EntityManager :=
  match m.entities.find? (fun x => x.1 = id) with
  | none => .panic
  | some x =>
      let slot := x.1
      if h : 0 ≤ slot ∧ slot.toNat < m.entities.length then
        let cur := m.entities.get ⟨slot.toNat, h.2⟩
        .ok ⟨m.sprites, m.entities.set slot.toNat (cur.1, f cur.2), m.counter⟩
      else .panic

/-- `EntityManager::tick`: every alive entity moves (`BaseEntity::tick`
updates only `pos`; the `f32` step is the opaque `move` parameter). -/
def EntityManager.tickAll (m : EntityManager) (mv : EEntity → Vec2) : EntityManager :=
  ⟨m.sprites,
    m.entities.map (fun x => if x.2.alive then (x.1, { x.2 with pos := mv x.2 }) else x),
    m.counter⟩

/-- server.rs `make_forest`: spawn one `Forest` entity per (random)
position; `num_trees = 5`, scale `8.0f32` (bit pattern `0x41000000`),
speed `0.0`, rotation `0.0`, direction `(0,0)`, no sprite. -/
def makeForest (m : EntityManager) (ps : List Vec2) : EntityManager :=
  ps.foldl
    (fun acc p => (acc.spawn p 1090519040 0 0 ⟨0, 0⟩ SpriteName.None EntityKind.Forest).1)
    m

/-! ## server.rs -/

/-- A peer address `(ip, port)`. -/
structure Addr where
  ip : Nat
  port : Nat
  deriving DecidableEq, Repr

/-- `(Ipv4Addr::UNSPECIFIED, 0)`: the sentinel used by `broadcast` when
no origin is excluded. -/
def unspecifiedAddr : Addr := ⟨0, 0⟩

/-- server.rs `broadcast`: send the packet to every client address other
than `but` (the origin, defaulting to the unspecified sentinel). -/
def broadcast (packet : Packet) (but : Option Addr) (clients : List Addr) :
    List (Packet × Addr) :=
  let b := but.getD unspecifiedAddr
  (clients.filter (fun a => a ≠ b)).map (fun a => (packet, a))

/-- The `EntitySpawn` the server builds for catch-up from a stored
entity (`read_packet_and_update_world`, new-client branch). -/
def spawnPacketOf (id : Int) (e : EEntity) : Packet :=
  EntitySpawn.toPacket ⟨id, e.kind, e.pos, e.scale, e.speed, e.dir⟩

/-- The server-side mutable state threaded through the tick loop. -/
structure ServerState where
  clients : List (Addr × Timer)
  ents : EntityManager
  playerIds : List (Addr × Int)
  deriving DecidableEq, Repr

/-- `e.id == 0` resolution against the sending session
(`player_ids[&address]` panics when the session has no player). -/
def resolveId (pids : List (Addr × Int)) (addr : Addr) (id : Int) : RRes Int :=
  if id = 0 then alIndex pids addr else .ok id

/-- `clients.get_mut(&address).unwrap().reset()`. -/
def resetAt (l : List (Addr × Timer)) (a : Addr) : RRes (List (Addr × Timer)) :=
  if l.any (fun x => x.1 = a) then .ok (alUpdate l a Timer.reset) else .panic

/-- server.rs `read_packet_and_update_world`, for one received packet:
known address → reset its liveness timer; unknown address → register a
fresh session and send one catch-up `EntitySpawn` per alive entity; then
dispatch on the opcode (`Pong` → reset again; application opcodes →
decode (`unwrap`), resolve id 0, mutate the authoritative store, and
rebroadcast to every session except the origin; any other opcode is an
out-of-range `transmute` of `common::OpCode`).  Returns the new state
and the ordered list of (packet, destination) sends. -/
def readPacketAndUpdateWorld (st : ServerState) (p : Packet) (addr : Addr) :
    RRes (ServerState × List (Packet × Addr)) :=
  let known := st.clients.any (fun x => x.1 = addr)
  let clients1 :=
    if known then alUpdate st.clients addr Timer.reset
    else alInsert st.clients addr (Timer.new TIMEOUT)
  let catchup : List (Packet × Addr) :=
    if known then []
    else (st.ents.iter).map (fun x => (spawnPacketOf x.1 x.2, addr))
  if p.opcode = opPong then
    RRes.bind (resetAt clients1 addr) fun clients2 =>
    .ok (⟨clients2, st.ents, st.playerIds⟩, catchup)
  else if p.opcode = opEntitySpawn then
    RRes.bind (RRes.unwrap (EntitySpawn.tryFrom p)) fun e =>
    let r := st.ents.spawn e.pos e.scale e.speed 0 e.dir SpriteName.None e.kind
    let e1 := { e with id := r.2 }
    let pids1 :=
      if e.kind = EntityKind.Player then alInsert st.playerIds addr r.2 else st.playerIds
    .ok (⟨clients1, r.1, pids1⟩,
      catchup ++ broadcast e1.toPacket (some addr) (clients1.map Prod.fst))
  else if p.opcode = opEntityUpdate then
    RRes.bind (RRes.unwrap (EntityUpdate.tryFrom p)) fun e =>
    RRes.bind (resolveId st.playerIds addr e.id) fun id1 =>
    let ents1 := st.ents.setPosition id1 e.pos
    .ok (⟨clients1, ents1, st.playerIds⟩,
      catchup ++
        broadcast (EntityUpdate.toPacket ⟨id1, e.pos⟩) (some addr) (clients1.map Prod.fst))
  else if p.opcode = opEntityDestroy then
    RRes.bind (RRes.unwrap (EntityDestroy.tryFrom p)) fun e =>
    RRes.bind (resolveId st.playerIds addr e.id) fun id1 =>
    RRes.bind (st.ents.destroy id1) fun ents1 =>
    .ok (⟨clients1, ents1, st.playerIds⟩,
      catchup ++
        broadcast (EntityDestroy.toPacket ⟨id1⟩) (some addr) (clients1.map Prod.fst))
  else
    .panic

/-- One purge step of server.rs `tick`: drop the session, and if it
owned a player entity, forget the ownership and broadcast
`EntityDestroy` to the sessions still registered at that moment.  (The
entity itself is *not* touched.) -/
def purgeStep (acc : List (Addr × Timer) × List (Addr × Int) × List (Packet × Addr))
    (a : Addr) : List (Addr × Timer) × List (Addr × Int) × List (Packet × Addr) :=
  let cs1 := alRemove acc.1 a
  match alLookup acc.2.1 a with
  | some id =>
      (cs1, alRemove acc.2.1 a,
        acc.2.2 ++ broadcast (EntityDestroy.toPacket ⟨id⟩) none (cs1.map Prod.fst))
  | none => (cs1, acc.2.1, acc.2.2)

/-- server.rs `tick`: advance every session's liveness timer by `dt` and
evict those that fired; move all alive entities; then destroy (and
broadcast destruction of) every alive `Enemy` near the origin
(`pos.len2() < 1.0`, the opaque `isNear`). -/
def serverTick (st : ServerState) (dt : Nat) (mv : EEntity → Vec2)
    (isNear : EEntity → Bool) : RRes (ServerState × List (Packet × Addr)) :=
  let ticked := st.clients.map (fun x => (x.1, Timer.tick x.2 dt))
  let clients1 := ticked.map (fun x => (x.1, x.2.2))
  let purge := (ticked.filter (fun x => x.2.1 = true)).map Prod.fst
  let r := purge.foldl purgeStep (clients1, st.playerIds, [])
  let ents1 := st.ents.tickAll mv
  let hunterPurge :=
    ((ents1.iter.filter (fun x => x.2.kind = EntityKind.Enemy)).filter
      (fun x => isNear x.2)).map Prod.fst
  RRes.bind
    (hunterPurge.foldlM
      (fun (acc : EntityManager × List (Packet × Addr)) id =>
        RRes.bind (acc.1.destroy id) fun em =>
        .ok (em, acc.2 ++ broadcast (EntityDestroy.toPacket ⟨id⟩) none (r.1.map Prod.fst)))
      (ents1, []))
    fun h =>
  .ok (⟨r.1, h.1, r.2.1⟩, r.2.2 ++ h.2)

/-! ## main.rs client (Engine::tick, packet branch) -/

/-- The sprite chosen for a replicated entity (main.rs `Engine::tick`,
`EntitySpawn` arm). -/
def spriteFor : EntityKind → SpriteName
  | .Tile => .Tile
  | .Forest => .Forest
  | .Player => .Deer
  | .PlayerProjectile => .Spit
  | .Enemy => .Hunter

/-- Client-side replication state: the local entity store, the
`server_to_local_id` translation table, and the timeout timer. -/
structure ClientState where
  ents : EntityManager
  serverToLocalId : List (Int × Int)
  timeoutTimer : Timer
  deriving DecidableEq, Repr

/-- main.rs `Engine::tick`, handling of one received packet
(lines 244-280): `Pong` resets the timeout timer; `EntitySpawn` creates
a local entity and records `server_id → local_id`; `EntityUpdate`
resolves the local id (panicking when unmapped) and redirects the local
entity toward the sent position (`d = e.pos - local.pos`, the opaque
`fsub`); `EntityDestroy` resolves the local id and kills the local
entity — the translation-table entry is left in place. -/
def clientHandlePacket (fsub : Vec2 → Vec2 → Vec2) (st : ClientState) (p : Packet) :
    RRes ClientState :=
  if p.opcode = opPong then
    .ok { st with timeoutTimer := st.timeoutTimer.reset }
  else if p.opcode = opEntitySpawn then
    RRes.bind (RRes.unwrap (EntitySpawn.tryFrom p)) fun e =>
    let r := st.ents.spawn e.pos e.scale e.speed 0 e.dir (spriteFor e.kind) e.kind
    .ok { st with ents := r.1, serverToLocalId := alInsert st.serverToLocalId e.id r.2 }
  else if p.opcode = opEntityUpdate then
    RRes.bind (RRes.unwrap (EntityUpdate.tryFrom p)) fun e =>
    RRes.bind (alIndex st.serverToLocalId e.id) fun lid =>
    RRes.bind (st.ents.get lid) fun ent =>
    RRes.bind (st.ents.modifyAt lid (fun x => { x with dir := fsub e.pos ent.pos })) fun ents1 =>
    .ok { st with ents := ents1 }
  else if p.opcode = opEntityDestroy then
    RRes.bind (RRes.unwrap (EntityDestroy.tryFrom p)) fun e =>
    RRes.bind (alIndex st.serverToLocalId e.id) fun lid =>
    RRes.bind (st.ents.destroy lid) fun ents1 =>
    .ok { st with ents := ents1 }
  else
    .panic

/-! ## Single-session liveness trace (server.rs read/tick interplay) -/

/-- What one registered session observes over time: an inbound
application frame from its address, or a server tick advancing its
liveness timer by `dt`. -/
inductive SEv where
  | frame
  | tick (dt : Nat)
  deriving DecidableEq, Repr

/-- A session with its liveness timer; `alive = false` once evicted
(eviction removes it from the registry, so it is absorbing). -/
structure SessionCell where
  alive : Bool
  timer : Timer
  deriving DecidableEq, Repr

/-- One event against one session: a frame resets the timer
(`read_packet_and_update_world`); a tick advances it and evicts on
firing (server.rs `tick`). -/
def sessionStep (c : SessionCell) (e : SEv) : SessionCell :=
  if c.alive then
    match e with
    | .frame => { c with timer := c.timer.reset }
    | .tick dt =>
        let r := c.timer.tick dt
        if r.1 then ⟨false, r.2⟩ else ⟨true, r.2⟩
  else c

/-- Run a session from registration (fresh `TIMEOUT` timer). -/
def sessionRun (evs : List SEv) : SessionCell :=
  evs.foldl sessionStep ⟨true, Timer.new TIMEOUT⟩

/-- Tick time accumulated over `evs` on top of a starting accumulator
`a`; a frame resets the count. -/
def accFrom (a : Nat) (evs : List SEv) : Nat :=
  evs.foldl (fun acc e => match e with | .frame => 0 | .tick dt => acc + dt) a

/-- Tick time accumulated since the last inbound frame (or since
registration when no frame occurred). -/
def sinceLastFrame (evs : List SEv) : Nat := accFrom 0 evs

/-! ## main.rs CLI -/

/-- What `main` does for a given argument vector. -/
inductive CliOutcome where
  | serverAndLocalClient (serverPort clientIp clientPort : Nat)
  | clientTo (ip port : Nat)
  | usageError
  deriving DecidableEq, Repr

/-- `Ipv4Addr::LOCALHOST` as a 32-bit value. -/
def localhostIp : Nat := 2130706433

/-- main.rs `main` (lines 333-352): `args[1] == "server"` spawns the
server on port 7777 and still opens the local client window connecting
to 127.0.0.1:7777; any other `args[1]` is parsed as an IP
(`expect` aborts with a non-zero exit on failure) and the client
connects to it on 7777; with no argument the client IP stays
`LOCALHOST` and the program runs as a client.  IP parsing
(`Ipv4Addr::from_str`) is the opaque `parseIp`. -/
def parseCli (parseIp : String → Option Nat) (args : List String) : CliOutcome :=
  match args with
  | _ :: arg1 :: _ =>
      if arg1 = "server" then .serverAndLocalClient 7777 localhostIp 7777
      else
        match parseIp arg1 with
        | some ip => .clientTo ip 7777
        | none => .usageError
  | _ => .clientTo localhostIp 7777

/-! ## Fixture helpers and operation traces -/

/-- Extract the success value of an `RRes`, with a fallback. -/
def RRes.okOr {α : Type} (d : α) : RRes α → α
  | .ok a => a
  | _ => d

/-- An `EntityManager` operation, for stating id-assignment facts over
arbitrary interleavings of spawns and destroys. -/
inductive MOp where
  | spawn (pos : Vec2) (scale speed rotation : Nat) (dir : Vec2)
      (sprite : SpriteName) (kind : EntityKind)
  | destroy (id : Int)

/-- Run a list of operations, collecting (in order) the id each spawn
returned. -/
def runOps (m : EntityManager) : List MOp → RRes (EntityManager × List Int)
  | [] => .ok (m, [])
  | .spawn p sc sp rot d spr k :: ops =>
      let r := m.spawn p sc sp rot d spr k
      RRes.bind (runOps r.1 ops) fun t => .ok (t.1, r.2 :: t.2)
  | .destroy id :: ops =>
      RRes.bind (m.destroy id) fun m1 => runOps m1 ops

/-- Number of spawn operations in a trace. -/
def spawnCount : List MOp → Nat
  | [] => 0
  | .spawn _ _ _ _ _ _ _ :: ops => spawnCount ops + 1
  | .destroy _ :: ops => spawnCount ops

/-- The entity `make_forest` builds at position `p`. -/
def treeEnt (p : Vec2) : EEntity :=
  ⟨true, p, 1090519040, 0, 0, ⟨0, 0⟩, none, EntityKind.Forest⟩

/-- A concrete IP parser used as a fixture: accepts only `9.9.9.9`. -/
def ipParseFix : String → Option Nat :=
  fun s => if s = "9.9.9.9" then some 151587081 else none

/-- Fixture: a freshly joining peer address. -/
def wAddrNew : Addr := ⟨9, 9⟩

/-- Fixture: a server state with three alive entities (ids 0, 2, 3),
one dead entity (id 1), no sessions. -/
def wServerSt : ServerState :=
  ⟨[],
    ⟨[],
      [(0, treeEnt ⟨1, 2⟩),
        (1, ⟨false, ⟨0, 0⟩, 0, 0, 0, ⟨0, 0⟩, none, EntityKind.Enemy⟩),
        (2, ⟨true, ⟨3, 4⟩, 5, 6, 0, ⟨0, 0⟩, none, EntityKind.Player⟩),
        (3, treeEnt ⟨7, 8⟩)],
      4⟩,
    []⟩

/-- Fixture: an application frame (position update for entity 2). -/
def wUpd : Packet := EntityUpdate.toPacket ⟨2, ⟨9, 9⟩⟩

/-- Fixture: the result of the server processing `wUpd` from the fresh
address `wAddrNew`. -/
def wRes : ServerState × List (Packet × Addr) :=
  (readPacketAndUpdateWorld wServerSt wUpd wAddrNew).okOr (⟨[], EntityManager.default, []⟩, [])

/-- Fixture: spawn, destroy the first entity, spawn again. -/
def wOps : List MOp :=
  [MOp.spawn ⟨1, 2⟩ 3 4 0 ⟨0, 0⟩ SpriteName.None EntityKind.Player,
    MOp.destroy 0,
    MOp.spawn ⟨5, 6⟩ 7 8 0 ⟨0, 0⟩ SpriteName.None EntityKind.Enemy]

/-- Fixture: result of running `wOps` from a default manager. -/
def wRunRes : EntityManager × List Int :=
  (runOps EntityManager.default wOps).okOr (EntityManager.default, [])

/-- Fixture: a one-entity manager and the result of destroying id 0. -/
def wMgr1 : EntityManager := ⟨[], [(0, treeEnt ⟨1, 2⟩)], 1⟩

def wMgr1d : EntityManager := (wMgr1.destroy 0).okOr EntityManager.default

/-- Fixture: the server state right after `make_forest` (two trees). -/
def wForestSt : ServerState :=
  ⟨[], makeForest EntityManager.default [⟨1, 1⟩, ⟨2, 2⟩], []⟩

/-- Fixture: result of the forest server processing a frame from a new
address. -/
def wForestRes : ServerState × List (Packet × Addr) :=
  (readPacketAndUpdateWorld wForestSt ⟨opPong, []⟩ wAddrNew).okOr
    (⟨[], EntityManager.default, []⟩, [])

/-- Fixture: a componentwise-first "subtraction" standing in for the
opaque `f32` vector subtraction. -/
def f0 : Vec2 → Vec2 → Vec2 := fun a _ => a

/-- Fixture: a fresh client state. -/
def wCliSt0 : ClientState := ⟨EntityManager.default, [], Timer.new TIMEOUT⟩

/-- Fixture: an `EntitySpawn` frame for server id 5. -/
def wSpawnP : Packet := EntitySpawn.toPacket ⟨5, EntityKind.Player, ⟨1, 2⟩, 3, 4, ⟨0, 0⟩⟩

/-- Fixture: the client state after receiving `wSpawnP`. -/
def wCliSt1 : ClientState := (clientHandlePacket f0 wCliSt0 wSpawnP).okOr wCliSt0

/-- Fixture: an `EntityDestroy` frame for server id 5. -/
def wDestP : Packet := EntityDestroy.toPacket ⟨5⟩

/-- Fixture: the client state after then receiving `wDestP`. -/
def wCliSt2 : ClientState := (clientHandlePacket f0 wCliSt1 wDestP).okOr wCliSt0

/-- Fixtures for the session-timeout scenario: two peers, A owning the
player entity with authoritative id 1. -/
def wAddrA : Addr := ⟨1, 10⟩

def wAddrB : Addr := ⟨2, 20⟩

def wPlayerEnt : EEntity := ⟨true, ⟨0, 0⟩, 0, 0, 0, ⟨0, 0⟩, none, EntityKind.Player⟩

/-- Fixture: A's liveness timer is 1ns short of the 3s threshold, B's
is fresh. -/
def wTickSt : ServerState :=
  ⟨[(wAddrA, ⟨2999999999, 3000000000⟩), (wAddrB, ⟨0, 3000000000⟩)],
    ⟨[], [(1, wPlayerEnt)], 2⟩,
    [(wAddrA, 1)]⟩

/-- Fixture: the server tick outcome after 1ns more (A times out). -/
def wTickRes : ServerState × List (Packet × Addr) :=
  (serverTick wTickSt 1 (fun e => e.pos) (fun _ => false)).okOr (wTickSt, [])

/-! # Theorems -/

/-! ## Generic lemmas -/

namespace RRes

@[simp] theorem bind_ok {α β : Type} (a : α) (f : α → RRes β) :
    bind (.ok a) f = f a := rfl

@[simp] theorem bind_err {α β : Type} (e : Error) (f : α → RRes β) :
    bind (.err e) f = .err e := rfl

@[simp] theorem bind_panic {α β : Type} (f : α → RRes β) :
    bind (.panic : RRes α) f = .panic := rfl

@[simp] theorem unwrap_ok {α : Type} (a : α) : unwrap (.ok a) = .ok a := rfl
@[simp] theorem unwrap_err {α : Type} (e : Error) : unwrap (.err e : RRes α) = .panic := rfl
@[simp] theorem unwrap_panic {α : Type} : unwrap (.panic : RRes α) = .panic := rfl

/-- A bind panics when the first computation cannot produce a typed
error and the continuation always panics. -/
theorem bind_panic_of {α β : Type} (x : RRes α) (f : α → RRes β)
    (hx : ∀ e, x ≠ .err e) (hf : ∀ a, f a = .panic) : bind x f = .panic := by
  cases x with
  | ok a => exact hf a
  | err e => exact absurd rfl (hx e)
  | panic => rfl

end RRes

theorem bytesToU32_u32At (w : Nat) (hw : w < 4294967296) :
    bytesToU32 (w / 16777216 % 256) (w / 65536 % 256) (w / 256 % 256) (w % 256) = w := by
  unfold bytesToU32
  omega

theorem u32ToI32_i32ToU32 (i : Int) (hi : isI32 i) : u32ToI32 (i32ToU32 i) = i := by
  obtain ⟨h1, h2⟩ := hi
  unfold u32ToI32 i32ToU32
  omega

theorem i32ToU32_lt (i : Int) : i32ToU32 i < 4294967296 := by
  unfold i32ToU32
  omega

theorem wrap32_eq_of_range (i : Int) (h1 : -(2147483648) ≤ i) (h2 : i < 2147483648) :
    wrap32 i = i := by
  unfold wrap32
  omega

@[simp] theorem byteToKind_toByte (k : EntityKind) : byteToKind k.toByte = .ok k := by
  cases k <;> rfl

theorem sliceBE4_panic_of_short (data : List Nat) (i : Nat)
    (h : data.length < i + 4) : sliceBE4 data i = .panic := by
  unfold sliceBE4
  rw [if_neg (by omega)]

theorem sliceBE4_ne_err (data : List Nat) (i : Nat) (e : Error) :
    sliceBE4 data i ≠ .err e := by
  unfold sliceBE4
  split <;> simp

theorem byteAt_ne_err (data : List Nat) (i : Nat) (e : Error) :
    byteAt data i ≠ .err e := by
  unfold byteAt
  split <;> simp

theorem byteToKind_ne_err (b : Nat) (e : Error) : byteToKind b ≠ .err e := by
  unfold byteToKind
  split <;> simp

/-! ## C3: encode/decode round-trip -/

theorem spawn_roundtrip (e : EntitySpawn) (h : e.Valid) :
    EntitySpawn.tryFrom e.toPacket = .ok e := by
  obtain ⟨hid, ⟨hpx, hpy⟩, hsc, hsp, ⟨hdx, hdy⟩⟩ := h
  simp only [EntitySpawn.tryFrom, EntitySpawn.toPacket, i32be, u32ToBytes, opEntitySpawn,
    List.cons_append, List.nil_append]
  rw [if_neg (by simp)]
  simp only [sliceBE4, byteAt, List.length_cons, List.length_nil, List.getD]
  norm_num
  rw [bytesToU32_u32At _ (i32ToU32_lt e.id), u32ToI32_i32ToU32 e.id hid,
    bytesToU32_u32At _ hpx, bytesToU32_u32At _ hpy, bytesToU32_u32At _ hsc,
    bytesToU32_u32At _ hsp, bytesToU32_u32At _ hdx, bytesToU32_u32At _ hdy]

theorem update_roundtrip (e : EntityUpdate) (h : e.Valid) :
    EntityUpdate.tryFrom e.toPacket = .ok e := by
  obtain ⟨hid, ⟨hpx, hpy⟩⟩ := h
  simp only [EntityUpdate.tryFrom, EntityUpdate.toPacket, i32be, u32ToBytes, opEntityUpdate,
    List.cons_append, List.nil_append]
  rw [if_neg (by simp)]
  simp only [sliceBE4, List.length_cons, List.length_nil, List.getD]
  norm_num
  rw [bytesToU32_u32At _ (i32ToU32_lt e.id), u32ToI32_i32ToU32 e.id hid,
    bytesToU32_u32At _ hpx, bytesToU32_u32At _ hpy]

theorem destroy_roundtrip (e : EntityDestroy) (h : e.Valid) :
    EntityDestroy.tryFrom e.toPacket = .ok e := by
  simp only [EntityDestroy.tryFrom, EntityDestroy.toPacket, i32be, u32ToBytes, opEntityDestroy]
  rw [if_neg (by simp)]
  simp only [sliceBE4, List.length_cons, List.length_nil, List.getD]
  norm_num
  rw [bytesToU32_u32At _ (i32ToU32_lt e.id), u32ToI32_i32ToU32 e.id h]

/-- C3: for every valid `EntitySpawn`, `EntityUpdate` and `EntityDestroy`
value `x`, encoding `x` to a wire packet and decoding it back yields
`x` exactly; the payloads are fixed-width (29, 12, 4 bytes), each
numeric field a fixed 4-byte big-endian group. -/
theorem claim_C3 :
    (∀ e : EntitySpawn, e.Valid → EntitySpawn.tryFrom e.toPacket = .ok e) ∧
    (∀ e : EntityUpdate, e.Valid → EntityUpdate.tryFrom e.toPacket = .ok e) ∧
    (∀ e : EntityDestroy, e.Valid → EntityDestroy.tryFrom e.toPacket = .ok e) ∧
    (∀ e : EntitySpawn, e.toPacket.data.length = 29) ∧
    (∀ e : EntityUpdate, e.toPacket.data.length = 12) ∧
    (∀ e : EntityDestroy, e.toPacket.data.length = 4) :=
  ⟨spawn_roundtrip, update_roundtrip, destroy_roundtrip,
    fun e => by simp [EntitySpawn.toPacket, i32be, u32ToBytes],
    fun e => by simp [EntityUpdate.toPacket, i32be, u32ToBytes],
    fun e => by simp [EntityDestroy.toPacket, i32be, u32ToBytes]⟩

/-- Witness for C3 at concrete valid values. -/
theorem claim_C3_witness :
    (EntitySpawn.Valid ⟨-7, .Player, ⟨1, 2⟩, 3, 4, ⟨5, 4294967295⟩⟩ ∧
      EntitySpawn.tryFrom (EntitySpawn.toPacket ⟨-7, .Player, ⟨1, 2⟩, 3, 4, ⟨5, 4294967295⟩⟩) =
        .ok ⟨-7, .Player, ⟨1, 2⟩, 3, 4, ⟨5, 4294967295⟩⟩) ∧
    (EntityUpdate.Valid ⟨2147483647, ⟨0, 9⟩⟩ ∧
      EntityUpdate.tryFrom (EntityUpdate.toPacket ⟨2147483647, ⟨0, 9⟩⟩) =
        .ok ⟨2147483647, ⟨0, 9⟩⟩) ∧
    (EntityDestroy.Valid ⟨-2147483648⟩ ∧
      EntityDestroy.tryFrom (EntityDestroy.toPacket ⟨-2147483648⟩) = .ok ⟨-2147483648⟩) :=
  ⟨⟨by decide, claim_C3.1 _ (by decide)⟩,
    ⟨by decide, claim_C3.2.1 _ (by decide)⟩,
    ⟨by decide, claim_C3.2.2.1 _ (by decide)⟩⟩

/-! ## C4: decoding a short payload -/

/-- C4 counterexample: decoding an `EntityDestroy` frame with an empty
payload does *not* fail with `NotEnoughData` — it panics (the slice
index `data[0..4]` is out of range and aborts the process). -/
theorem claim_C4_counterexample :
    EntityDestroy.tryFrom ⟨opEntityDestroy, []⟩ = .panic ∧
    EntityDestroy.tryFrom ⟨opEntityDestroy, []⟩ ≠ .err .NotEnoughData := by
  decide

/-- C4 (amended): decoding a typed payload from a frame with the
matching opcode and a payload shorter than the type's fixed width
(29, 12, 4 bytes) always aborts with a panic (slice index out of
range) — it is never a typed `NotEnoughData` error, and it never
silently truncates (no `ok` result). -/
theorem claim_C4 :
    (∀ p : Packet, p.opcode = opEntitySpawn → p.data.length < 29 →
      EntitySpawn.tryFrom p = .panic) ∧
    (∀ p : Packet, p.opcode = opEntityUpdate → p.data.length < 12 →
      EntityUpdate.tryFrom p = .panic) ∧
    (∀ p : Packet, p.opcode = opEntityDestroy → p.data.length < 4 →
      EntityDestroy.tryFrom p = .panic) := by
  refine ⟨fun p hop hlen => ?_, fun p hop hlen => ?_, fun p hop hlen => ?_⟩
  · rw [EntitySpawn.tryFrom, if_neg (by simp [hop])]
    refine RRes.bind_panic_of _ _ (sliceBE4_ne_err _ _) fun idw => ?_
    refine RRes.bind_panic_of _ _ (byteAt_ne_err _ _) fun kb => ?_
    refine RRes.bind_panic_of _ _ (byteToKind_ne_err _) fun kind => ?_
    refine RRes.bind_panic_of _ _ (sliceBE4_ne_err _ _) fun x => ?_
    refine RRes.bind_panic_of _ _ (sliceBE4_ne_err _ _) fun y => ?_
    refine RRes.bind_panic_of _ _ (sliceBE4_ne_err _ _) fun scale => ?_
    refine RRes.bind_panic_of _ _ (sliceBE4_ne_err _ _) fun speed => ?_
    refine RRes.bind_panic_of _ _ (sliceBE4_ne_err _ _) fun dx => ?_
    rw [sliceBE4_panic_of_short p.data 25 (by omega)]
    rfl
  · rw [EntityUpdate.tryFrom, if_neg (by simp [hop])]
    refine RRes.bind_panic_of _ _ (sliceBE4_ne_err _ _) fun idw => ?_
    refine RRes.bind_panic_of _ _ (sliceBE4_ne_err _ _) fun x => ?_
    rw [sliceBE4_panic_of_short p.data 8 (by omega)]
    rfl
  · rw [EntityDestroy.tryFrom, if_neg (by simp [hop])]
    rw [sliceBE4_panic_of_short p.data 0 (by omega)]
    rfl

/-- Witness for C4 at concrete short frames. -/
theorem claim_C4_witness :
    ((Packet.mk opEntitySpawn [0, 1, 2]).opcode = opEntitySpawn ∧
      (Packet.mk opEntitySpawn [0, 1, 2]).data.length < 29 ∧
      EntitySpawn.tryFrom ⟨opEntitySpawn, [0, 1, 2]⟩ = .panic) ∧
    ((Packet.mk opEntityUpdate [9]).opcode = opEntityUpdate ∧
      (Packet.mk opEntityUpdate [9]).data.length < 12 ∧
      EntityUpdate.tryFrom ⟨opEntityUpdate, [9]⟩ = .panic) ∧
    ((Packet.mk opEntityDestroy [1, 2, 3]).opcode = opEntityDestroy ∧
      (Packet.mk opEntityDestroy [1, 2, 3]).data.length < 4 ∧
      EntityDestroy.tryFrom ⟨opEntityDestroy, [1, 2, 3]⟩ = .panic) :=
  ⟨⟨rfl, by decide, claim_C4.1 _ rfl (by decide)⟩,
    ⟨rfl, by decide, claim_C4.2.1 _ rfl (by decide)⟩,
    ⟨rfl, by decide, claim_C4.2.2 _ rfl (by decide)⟩⟩

/-! ## C8: accumulating timer -/

/-- C8: `Timer::tick` fires exactly when the accumulator reaches the
threshold, and on firing keeps the remainder `accumulator + dt -
threshold` (otherwise it just accumulates).  Its result is a single
boolean, so it fires at most once per call; in particular when one
large `dt` crosses the threshold twice, it still fires only once and
the kept remainder itself still exceeds the threshold — the
accumulator is not reset to zero. -/
theorem claim_C8 :
    (∀ (t : Timer) (dt : Nat),
      ((t.tick dt).1 = true ↔ t.threshold ≤ t.accumulator + dt) ∧
      ((t.tick dt).1 = true →
        (t.tick dt).2.accumulator = t.accumulator + dt - t.threshold) ∧
      ((t.tick dt).1 = false → (t.tick dt).2.accumulator = t.accumulator + dt)) ∧
    (∀ (t : Timer) (dt : Nat), 2 * t.threshold ≤ t.accumulator + dt →
      (t.tick dt).1 = true ∧ t.threshold ≤ (t.tick dt).2.accumulator) := by
  constructor
  · intro t dt
    by_cases h : t.threshold ≤ t.accumulator + dt <;> simp [Timer.tick, h]
  · intro t dt h
    have h1 : t.threshold ≤ t.accumulator + dt := by omega
    simp [Timer.tick, h1]
    omega

/-- Witness for C8: threshold 10, accumulator 4, `dt = 21` crosses the
threshold twice; one fire, remainder 15 (not 0). -/
theorem claim_C8_witness :
    2 * (Timer.mk 4 10).threshold ≤ (Timer.mk 4 10).accumulator + 21 ∧
    ((Timer.mk 4 10).tick 21).1 = true ∧
    10 ≤ ((Timer.mk 4 10).tick 21).2.accumulator :=
  ⟨by decide, (claim_C8.2 ⟨4, 10⟩ 21 (by decide)).1, (claim_C8.2 ⟨4, 10⟩ 21 (by decide)).2⟩

/-! ## C6: broadcast exclusion -/

/-- C6: a rebroadcast originating from address `A` reaches exactly the
registered addresses other than `A` (each such address receives the
packet, every delivery carries the packet, targets a registered
address, and never `A`); a server-originated broadcast (no origin)
reaches every registered address, provided no session is registered at
the `0.0.0.0:0` sentinel the code substitutes for "no origin" (a real
peer address never is). -/
theorem claim_C6 (packet : Packet) (clients : List Addr) :
    (∀ A : Addr, ∀ a ∈ clients, a ≠ A → (packet, a) ∈ broadcast packet (some A) clients) ∧
    (∀ A : Addr, ∀ pa ∈ broadcast packet (some A) clients,
      pa.1 = packet ∧ pa.2 ∈ clients ∧ pa.2 ≠ A) ∧
    (unspecifiedAddr ∉ clients →
      ∀ a ∈ clients, (packet, a) ∈ broadcast packet none clients) := by
  refine ⟨fun A a ha hne => ?_, fun A pa hpa => ?_, fun hu a ha => ?_⟩
  · simp only [broadcast, Option.getD, List.mem_map, List.mem_filter]
    exact ⟨a, ⟨ha, by simp [hne]⟩, rfl⟩
  · revert hpa
    simp only [broadcast, Option.getD, List.mem_map, List.mem_filter]
    rintro ⟨b, ⟨hb, hbne⟩, rfl⟩
    simp_all
  · simp only [broadcast, Option.getD, List.mem_map, List.mem_filter]
    refine ⟨a, ⟨ha, ?_⟩, rfl⟩
    simp only [decide_eq_true_eq]
    intro heq
    exact hu (heq ▸ ha)

/-- Witness for C6 at a concrete registry. -/
theorem claim_C6_witness :
    ((⟨1, 1⟩ : Addr) ∈ [(⟨1, 1⟩ : Addr), ⟨2, 2⟩] ∧ (⟨1, 1⟩ : Addr) ≠ ⟨2, 2⟩ ∧
      ((⟨opPing, []⟩ : Packet), (⟨1, 1⟩ : Addr)) ∈
        broadcast ⟨opPing, []⟩ (some ⟨2, 2⟩) [⟨1, 1⟩, ⟨2, 2⟩]) ∧
    (unspecifiedAddr ∉ [(⟨1, 1⟩ : Addr), ⟨2, 2⟩] ∧
      ((⟨opPing, []⟩ : Packet), (⟨2, 2⟩ : Addr)) ∈
        broadcast ⟨opPing, []⟩ none [⟨1, 1⟩, ⟨2, 2⟩]) :=
  ⟨⟨by decide, by decide,
      (claim_C6 ⟨opPing, []⟩ [⟨1, 1⟩, ⟨2, 2⟩]).1 ⟨2, 2⟩ ⟨1, 1⟩ (by decide) (by decide)⟩,
    ⟨by decide,
      (claim_C6 ⟨opPing, []⟩ [⟨1, 1⟩, ⟨2, 2⟩]).2.2 (by decide) ⟨2, 2⟩ (by decide)⟩⟩

/-! ## C9: CLI role selection -/

/-- C9 counterexample: with no argument at all, `main` does *not* fail
with a usage error — the client IP stays `LOCALHOST` and the program
runs as a client connecting to 127.0.0.1:7777. -/
theorem claim_C9_counterexample :
    parseCli (fun _ => none) ["deer-defense"] = .clientTo localhostIp 7777 ∧
    parseCli (fun _ => none) ["deer-defense"] ≠ .usageError :=
  ⟨rfl, by decide⟩

/-- C9 (amended): the first positional argument selects the role:
`server` starts the server on default port 7777 (and still opens the
local client window connected to 127.0.0.1:7777); an argument parsing
as an IP address runs a client to that address on port 7777; an
argument that is neither is a fatal usage error (`expect` panics, a
non-zero exit).  With *no* argument the program is not an error: it
runs as a client connecting to 127.0.0.1:7777. -/
theorem claim_C9 (parseIp : String → Option Nat) :
    (∀ pre rest, parseCli parseIp (pre :: "server" :: rest) =
      .serverAndLocalClient 7777 localhostIp 7777) ∧
    (∀ pre a rest ip, a ≠ "server" → parseIp a = some ip →
      parseCli parseIp (pre :: a :: rest) = .clientTo ip 7777) ∧
    (∀ pre a rest, a ≠ "server" → parseIp a = none →
      parseCli parseIp (pre :: a :: rest) = .usageError) ∧
    (∀ pre, parseCli parseIp [pre] = .clientTo localhostIp 7777) ∧
    (parseCli parseIp [] = .clientTo localhostIp 7777) := by
  refine ⟨fun pre rest => ?_, fun pre a rest ip ha hip => ?_,
    fun pre a rest ha hip => ?_, fun pre => rfl, rfl⟩
  · simp [parseCli]
  · simp [parseCli, ha, hip]
  · simp [parseCli, ha, hip]

/-- Witness for C9 with a concrete parser. -/
theorem claim_C9_witness :
    parseCli ipParseFix ["prog", "server"] = .serverAndLocalClient 7777 localhostIp 7777 ∧
    ("9.9.9.9" ≠ "server" ∧ ipParseFix "9.9.9.9" = some 151587081 ∧
      parseCli ipParseFix ["prog", "9.9.9.9"] = .clientTo 151587081 7777) ∧
    ("bogus" ≠ "server" ∧ ipParseFix "bogus" = none ∧
      parseCli ipParseFix ["prog", "bogus"] = .usageError) ∧
    parseCli ipParseFix ["prog"] = .clientTo localhostIp 7777 :=
  ⟨(claim_C9 ipParseFix).1 "prog" [],
    ⟨by decide, by decide,
      (claim_C9 ipParseFix).2.1 "prog" "9.9.9.9" [] 151587081 (by decide) (by decide)⟩,
    ⟨by decide, by decide,
      (claim_C9 ipParseFix).2.2.1 "prog" "bogus" [] (by decide) (by decide)⟩,
    (claim_C9 ipParseFix).2.2.2.1 "prog"⟩

/-! ## C5: liveness timer reset/eviction discipline -/

theorem sessionStep_dead (c : SessionCell) (e : SEv) (h : c.alive = false) :
    sessionStep c e = c := by
  simp [sessionStep, h]

theorem foldl_sessionStep_dead (evs : List SEv) (c : SessionCell) (h : c.alive = false) :
    evs.foldl sessionStep c = c := by
  induction evs generalizing c with
  | nil => rfl
  | cons e evs ih =>
    rw [List.foldl_cons, sessionStep_dead c e h]
    exact ih c h

/-- Behaviour of a session from an arbitrary alive cell: it ends up
evicted exactly when some tick pushes the accumulated time since the
last reset to the threshold; while alive, the accumulator equals the
accumulated tick time since the last reset. -/
theorem run_spec (evs : List SEv) : ∀ c : SessionCell,
    c.alive = true → c.timer.threshold = TIMEOUT →
    (((evs.foldl sessionStep c).alive = false) ↔
      (∃ p t rest, evs = p ++ SEv.tick t :: rest ∧
        TIMEOUT ≤ accFrom c.timer.accumulator p + t)) ∧
    ((evs.foldl sessionStep c).alive = true →
      (evs.foldl sessionStep c).timer.accumulator = accFrom c.timer.accumulator evs) := by
  induction evs with
  | nil =>
    intro c hc hthr
    refine ⟨?_, fun _ => rfl⟩
    simp only [List.foldl_nil, hc]
    constructor
    · intro h
      cases h
    · rintro ⟨p, t, rest, hsplit, -⟩
      exact absurd hsplit (by simp)
  | cons e evs ih =>
    intro c hc hthr
    cases e with
    | frame =>
      have hstep : sessionStep c .frame = ⟨true, c.timer.reset⟩ := by
        simp [sessionStep, hc]
      obtain ⟨ih1, ih2⟩ := ih ⟨true, c.timer.reset⟩ rfl (by simpa [Timer.reset] using hthr)
      rw [List.foldl_cons, hstep]
      constructor
      · rw [ih1]
        constructor
        · rintro ⟨p, t, rest, hsplit, hsum⟩
          refine ⟨.frame :: p, t, rest, by rw [hsplit, List.cons_append], ?_⟩
          simpa [accFrom, Timer.reset] using hsum
        · rintro ⟨p, t, rest, hsplit, hsum⟩
          cases p with
          | nil => exact absurd hsplit (by simp)
          | cons e0 p' =>
            rw [List.cons_append] at hsplit
            injection hsplit with h1 h2
            subst h1
            exact ⟨p', t, rest, h2, by simpa [accFrom, Timer.reset] using hsum⟩
      · intro halive
        rw [ih2 halive]
        simp [accFrom, Timer.reset]
    | tick dt =>
      by_cases hfire : TIMEOUT ≤ c.timer.accumulator + dt
      · have hstep : sessionStep c (.tick dt) =
            ⟨false, ⟨c.timer.accumulator + dt - TIMEOUT, TIMEOUT⟩⟩ := by
          simp [sessionStep, hc, Timer.tick, hthr, hfire]
        rw [List.foldl_cons, hstep, foldl_sessionStep_dead _ _ rfl]
        refine ⟨?_, fun h => absurd h (by simp)⟩
        constructor
        · intro _
          exact ⟨[], dt, evs, rfl, by simpa [accFrom] using hfire⟩
        · intro _
          rfl
      · have hstep : sessionStep c (.tick dt) =
            ⟨true, ⟨c.timer.accumulator + dt, TIMEOUT⟩⟩ := by
          simp [sessionStep, hc, Timer.tick, hthr, hfire]
        obtain ⟨ih1, ih2⟩ := ih ⟨true, ⟨c.timer.accumulator + dt, TIMEOUT⟩⟩ rfl rfl
        rw [List.foldl_cons, hstep]
        constructor
        · rw [ih1]
          constructor
          · rintro ⟨p, t, rest, hsplit, hsum⟩
            exact ⟨.tick dt :: p, t, rest, by rw [hsplit, List.cons_append],
              by simpa [accFrom] using hsum⟩
          · rintro ⟨p, t, rest, hsplit, hsum⟩
            cases p with
            | nil =>
              simp only [List.nil_append] at hsplit
              injection hsplit with h1 h2
              injection h1 with h1'
              subst h1' h2
              exact absurd (by simpa [accFrom] using hsum) hfire
            | cons e0 p' =>
              rw [List.cons_append] at hsplit
              injection hsplit with h1 h2
              subst h1
              exact ⟨p', t, rest, h2, by simpa [accFrom] using hsum⟩
        · intro halive
          rw [ih2 halive]
          simp [accFrom]

/-- C5: (a) while a session is alive, any inbound frame from its
address resets the liveness timer to zero, and a trace ending in a
frame leaves the accumulator at zero; (b) a session is evicted
precisely when some server tick brings the tick time accumulated since
the last reset (frame) to at least the `TIMEOUT` threshold. -/
theorem claim_C5 :
    (∀ c : SessionCell, c.alive = true →
      (sessionStep c SEv.frame).alive = true ∧
      (sessionStep c SEv.frame).timer.accumulator = 0) ∧
    (∀ evs : List SEv, (sessionRun (evs ++ [SEv.frame])).alive = true →
      (sessionRun (evs ++ [SEv.frame])).timer.accumulator = 0) ∧
    (∀ evs : List SEv,
      ((sessionRun evs).alive = false ↔
        ∃ p t rest, evs = p ++ SEv.tick t :: rest ∧ TIMEOUT ≤ sinceLastFrame p + t)) := by
  refine ⟨fun c hc => ?_, fun evs halive => ?_, fun evs => ?_⟩
  · constructor <;> simp [sessionStep, hc, Timer.reset]
  · have h := (run_spec (evs ++ [SEv.frame]) ⟨true, Timer.new TIMEOUT⟩ rfl rfl).2 halive
    unfold sessionRun
    rw [h]
    simp [accFrom, List.foldl_append]
  · exact (run_spec evs ⟨true, Timer.new TIMEOUT⟩ rfl rfl).1

/-- Witness for C5: a single 3-second tick evicts a fresh session; a
frame after a short tick leaves the session alive with a zeroed
accumulator. -/
theorem claim_C5_witness :
    ((sessionRun [SEv.tick 3000000000]).alive = false) ∧
    ((sessionRun [SEv.tick 1, SEv.frame]).alive = true ∧
      (sessionRun [SEv.tick 1, SEv.frame]).timer.accumulator = 0) :=
  ⟨(claim_C5.2.2 [SEv.tick 3000000000]).mpr ⟨[], 3000000000, [], rfl, by decide⟩,
    ⟨by decide, claim_C5.2.1 [SEv.tick 1] (by decide)⟩⟩

/-! ## C7: late-join catch-up -/

theorem alInsert_any_key {κ β : Type} [DecidableEq κ] (l : List (κ × β)) (k : κ) (v : β) :
    (alInsert l k v).any (fun x => x.1 = k) = true := by
  unfold alInsert
  split
  · next h =>
    simp only [List.any_eq_true] at h ⊢
    obtain ⟨x, hx, hxk⟩ := h
    refine ⟨if x.1 = k then (k, v) else x, List.mem_map_of_mem _ hx, ?_⟩
    simp only [decide_eq_true_eq] at hxk
    simp [hxk]
  · simp [List.any_append]

theorem alUpdate_map_fst {κ β : Type} [DecidableEq κ] (l : List (κ × β)) (k : κ) (f : β → β) :
    (alUpdate l k f).map Prod.fst = l.map Prod.fst := by
  unfold alUpdate
  induction l with
  | nil => rfl
  | cons x xs ih =>
    simp only [List.map_cons, ih]
    by_cases h : x.1 = k <;> simp [h]

theorem any_fst_congr {κ β : Type} (l1 l2 : List (κ × β))
    (h : l1.map Prod.fst = l2.map Prod.fst) (p : κ → Bool) :
    l1.any (fun x => p x.1) = l2.any (fun x => p x.1) := by
  induction l1 generalizing l2 with
  | nil =>
    cases l2 with
    | nil => rfl
    | cons y ys => exact absurd h (by simp)
  | cons x xs ih =>
    cases l2 with
    | nil => exact absurd h (by simp)
    | cons y ys =>
      simp only [List.map_cons, List.cons.injEq] at h
      simp only [List.any_cons, h.1, ih ys h.2]

theorem alUpdate_any_key {κ β : Type} [DecidableEq κ] (l : List (κ × β)) (k k2 : κ)
    (f : β → β) :
    (alUpdate l k2 f).any (fun x => x.1 = k) = l.any (fun x => x.1 = k) := by
  induction l with
  | nil => rfl
  | cons x xs ih =>
    by_cases h : x.1 = k2 <;>
      simp only [alUpdate, List.map_cons, List.any_cons, h, if_true, if_false] at ih ⊢ <;>
      rw [ih]

theorem broadcast_snd_ne (q : Packet) (A : Addr) (cls : List Addr) :
    ∀ pa ∈ broadcast q (some A) cls, pa.2 ≠ A := by
  intro pa hpa
  simp only [broadcast, Option.getD_some, List.mem_map, List.mem_filter] at hpa
  obtain ⟨b, ⟨hb, hbne⟩, rfl⟩ := hpa
  simpa using hbne

/-- On a packet from an unregistered address, the server's sends are
the catch-up spawns (one per alive entity, to the new peer, first),
followed only by sends to other addresses; and the address ends up
registered. -/
theorem readPacket_new (st : ServerState) (p : Packet) (addr : Addr)
    (hnew : st.clients.any (fun x => x.1 = addr) = false)
    (st' : ServerState) (sends : List (Packet × Addr))
    (hok : readPacketAndUpdateWorld st p addr = .ok (st', sends)) :
    ∃ rest, sends = (st.ents.iter).map (fun x => (spawnPacketOf x.1 x.2, addr)) ++ rest ∧
      (∀ pa ∈ rest, pa.2 ≠ addr) ∧
      st'.clients.any (fun x => x.1 = addr) = true := by
  have hins := alInsert_any_key st.clients addr (Timer.new TIMEOUT)
  by_cases h3 : p.opcode = opPong
  · simp only [readPacketAndUpdateWorld, hnew, eq_true h3, resetAt, hins, Bool.false_eq_true,
      if_false, if_true, RRes.bind_ok] at hok
    simp only [RRes.ok.injEq, Prod.mk.injEq] at hok
    obtain ⟨hst, hsends⟩ := hok
    refine ⟨[], by rw [← hsends, List.append_nil], fun pa hpa => absurd hpa (List.not_mem_nil pa),
      ?_⟩
    rw [← hst]
    exact (alUpdate_any_key _ _ _ _).trans hins
  by_cases h4 : p.opcode = opEntitySpawn
  · simp only [readPacketAndUpdateWorld, hnew, eq_false h3, eq_true h4, Bool.false_eq_true,
      if_false, if_true] at hok
    cases hdec : EntitySpawn.tryFrom p with
    | ok e =>
      rw [hdec] at hok
      simp only [RRes.unwrap_ok, RRes.bind_ok, RRes.ok.injEq, Prod.mk.injEq] at hok
      obtain ⟨hst, hsends⟩ := hok
      refine ⟨_, hsends.symm, broadcast_snd_ne _ _ _, ?_⟩
      rw [← hst]
      exact hins
    | err e =>
      rw [hdec] at hok
      exact absurd hok (by simp)
    | panic =>
      rw [hdec] at hok
      exact absurd hok (by simp)
  by_cases h5 : p.opcode = opEntityUpdate
  · simp only [readPacketAndUpdateWorld, hnew, eq_false h3, eq_false h4, eq_true h5,
      Bool.false_eq_true, if_false, if_true] at hok
    cases hdec : EntityUpdate.tryFrom p with
    | ok e =>
      rw [hdec] at hok
      simp only [RRes.unwrap_ok, RRes.bind_ok] at hok
      cases hres : resolveId st.playerIds addr e.id with
      | ok id1 =>
        rw [hres] at hok
        simp only [RRes.bind_ok, RRes.ok.injEq, Prod.mk.injEq] at hok
        obtain ⟨hst, hsends⟩ := hok
        refine ⟨_, hsends.symm, broadcast_snd_ne _ _ _, ?_⟩
        rw [← hst]
        exact hins
      | err e1 =>
        rw [hres] at hok
        exact absurd hok (by simp)
      | panic =>
        rw [hres] at hok
        exact absurd hok (by simp)
    | err e =>
      rw [hdec] at hok
      exact absurd hok (by simp)
    | panic =>
      rw [hdec] at hok
      exact absurd hok (by simp)
  by_cases h6 : p.opcode = opEntityDestroy
  · simp only [readPacketAndUpdateWorld, hnew, eq_false h3, eq_false h4, eq_false h5,
      eq_true h6, Bool.false_eq_true, if_false, if_true] at hok
    cases hdec : EntityDestroy.tryFrom p with
    | ok e =>
      rw [hdec] at hok
      simp only [RRes.unwrap_ok, RRes.bind_ok] at hok
      cases hres : resolveId st.playerIds addr e.id with
      | ok id1 =>
        rw [hres] at hok
        simp only [RRes.bind_ok] at hok
        cases hdes : st.ents.destroy id1 with
        | ok ents1 =>
          rw [hdes] at hok
          simp only [RRes.bind_ok, RRes.ok.injEq, Prod.mk.injEq] at hok
          obtain ⟨hst, hsends⟩ := hok
          refine ⟨_, hsends.symm, broadcast_snd_ne _ _ _, ?_⟩
          rw [← hst]
          exact hins
        | err e1 =>
          rw [hdes] at hok
          exact absurd hok (by simp)
        | panic =>
          rw [hdes] at hok
          exact absurd hok (by simp)
      | err e1 =>
        rw [hres] at hok
        exact absurd hok (by simp)
      | panic =>
        rw [hres] at hok
        exact absurd hok (by simp)
    | err e =>
      rw [hdec] at hok
      exact absurd hok (by simp)
    | panic =>
      rw [hdec] at hok
      exact absurd hok (by simp)
  · simp only [readPacketAndUpdateWorld, hnew, eq_false h3, eq_false h4, eq_false h5,
      eq_false h6, Bool.false_eq_true, if_false, if_true] at hok
    exact absurd hok (by simp)

/-- C7: when the server processes a frame from an address with no
registered session, it registers a session for that address, and the
sends are exactly one catch-up `EntitySpawn` per currently-alive entity
of the authoritative store, addressed to that peer, first — whatever
else the frame triggers is sent only to *other* addresses. -/
theorem claim_C7 (st : ServerState) (p : Packet) (addr : Addr)
    (hnew : st.clients.any (fun x => x.1 = addr) = false)
    (st' : ServerState) (sends : List (Packet × Addr))
    (hok : readPacketAndUpdateWorld st p addr = .ok (st', sends)) :
    ∃ rest, sends = (st.ents.iter).map (fun x => (spawnPacketOf x.1 x.2, addr)) ++ rest ∧
      (∀ pa ∈ rest, pa.2 ≠ addr) ∧
      st'.clients.any (fun x => x.1 = addr) = true :=
  readPacket_new st p addr hnew st' sends hok

/-- Witness for C7: a peer joins while exactly 3 entities are alive
(one dead entity is also stored) and receives exactly the 3 catch-up
spawns. -/
theorem claim_C7_witness :
    (wServerSt.clients.any (fun x => x.1 = wAddrNew) = false) ∧
    (wServerSt.ents.iter).length = 3 ∧
    readPacketAndUpdateWorld wServerSt wUpd wAddrNew = .ok wRes ∧
    (∃ rest,
      wRes.2 = (wServerSt.ents.iter).map (fun x => (spawnPacketOf x.1 x.2, wAddrNew)) ++ rest ∧
      (∀ pa ∈ rest, pa.2 ≠ wAddrNew) ∧
      wRes.1.clients.any (fun x => x.1 = wAddrNew) = true) :=
  ⟨rfl, rfl, rfl, claim_C7 wServerSt wUpd wAddrNew rfl wRes.1 wRes.2 rfl⟩

/-! ## C10: id assignment -/

theorem killFirst_map_fst (id : Int) (l : List (Int × EEntity)) :
    (killFirst id l).map Prod.fst = l.map Prod.fst := by
  induction l with
  | nil => rfl
  | cons x xs ih =>
    unfold killFirst
    by_cases h : x.1 = id <;> simp [h, ih]

theorem destroy_preserves (m : EntityManager) (id : Int) (m1 : EntityManager)
    (h : m.destroy id = .ok m1) :
    m1.counter = m.counter ∧ m1.entities.map Prod.fst = m.entities.map Prod.fst := by
  unfold EntityManager.destroy at h
  split at h
  · simp only [RRes.ok.injEq] at h
    rw [← h]
    exact ⟨rfl, killFirst_map_fst id m.entities⟩
  · exact absurd h (by simp)

theorem runOps_ids (ops : List MOp) : ∀ (m m' : EntityManager) (ids : List Int),
    0 ≤ m.counter → m.counter + spawnCount ops < 2147483648 →
    runOps m ops = .ok (m', ids) →
    ids = (List.range (spawnCount ops)).map (fun n : Nat => m.counter + (n : Int)) := by
  induction ops with
  | nil =>
    intro m m' ids h0 h1 hrun
    simp only [runOps, RRes.ok.injEq, Prod.mk.injEq] at hrun
    rw [← hrun.2]
    simp [spawnCount]
  | cons op ops ih =>
    intro m m' ids h0 h1 hrun
    cases op with
    | spawn p sc sp rot d spr k =>
      simp only [spawnCount] at h1 ⊢
      simp only [runOps] at hrun
      cases hr : runOps (m.spawn p sc sp rot d spr k).1 ops with
      | ok t =>
        rw [hr] at hrun
        simp only [RRes.bind_ok, RRes.ok.injEq, Prod.mk.injEq] at hrun
        obtain ⟨hm', hids⟩ := hrun
        have hcnt : (m.spawn p sc sp rot d spr k).1.counter = m.counter + 1 := by
          simp only [EntityManager.spawn, EntityManager.emplaceEntity]
          exact wrap32_eq_of_range _ (by omega) (by omega)
        have hrec := ih _ t.1 t.2 (by rw [hcnt]; omega) (by rw [hcnt]; omega) hr
        rw [← hids, hrec, hcnt]
        have hid0 : (m.spawn p sc sp rot d spr k).2 = m.counter := rfl
        rw [hid0, List.range_succ_eq_map, List.map_cons, List.map_map]
        refine (List.cons.injEq _ _ _ _).mpr ⟨by simp, ?_⟩
        apply List.map_congr_left
        intro a ha
        simp only [Function.comp_apply]
        push_cast
        ring
      | err e =>
        rw [hr] at hrun
        exact absurd hrun (by simp)
      | panic =>
        rw [hr] at hrun
        exact absurd hrun (by simp)
    | destroy id =>
      simp only [spawnCount] at h1 ⊢
      simp only [runOps] at hrun
      cases hd : m.destroy id with
      | ok m1 =>
        rw [hd] at hrun
        simp only [RRes.bind_ok] at hrun
        have hc := (destroy_preserves m id m1 hd).1
        have := ih m1 m' ids (by rw [hc]; exact h0) (by rw [hc]; omega) hrun
        rw [this, hc]
      | err e =>
        rw [hd] at hrun
        exact absurd hrun (by simp)
      | panic =>
        rw [hd] at hrun
        exact absurd hrun (by simp)

theorem makeForest_entities (ps : List Vec2) : ∀ m : EntityManager,
    ∃ l, (makeForest m ps).entities = m.entities ++ l := by
  induction ps with
  | nil => exact fun m => ⟨[], by simp [makeForest]⟩
  | cons p ps ih =>
    intro m
    obtain ⟨l, hl⟩ :=
      ih (m.spawn p 1090519040 0 0 ⟨0, 0⟩ SpriteName.None EntityKind.Forest).1
    refine ⟨(m.counter, ⟨true, p, 1090519040, 0, 0, ⟨0, 0⟩,
      if SpriteName.None ∈ m.sprites then some SpriteName.None else none,
      EntityKind.Forest⟩) :: l, ?_⟩
    have hsp : (m.spawn p 1090519040 0 0 ⟨0, 0⟩ SpriteName.None EntityKind.Forest).1.entities =
        m.entities ++ [(m.counter, ⟨true, p, 1090519040, 0, 0, ⟨0, 0⟩,
          if SpriteName.None ∈ m.sprites then some SpriteName.None else none,
          EntityKind.Forest⟩)] := by
      simp [EntityManager.spawn, EntityManager.emplaceEntity]
    unfold makeForest at hl ⊢
    rw [List.foldl_cons, hl, hsp, List.append_assoc, List.singleton_append]

/-- C10: the id counter of a default-constructed `EntityManager` starts
at 0; every spawn hands out the current counter and bumps it; a destroy
changes neither the counter nor the stored id list; hence over any
spawn/destroy interleaving from a default manager the assigned ids are
consecutively 0, 1, 2, … (never reused).  In particular the server's
first entity (the first `make_forest` tree) receives authoritative id
0 — the very value `resolveId` reserves on the wire for "the sender's
own, not yet assigned, entity" — and the catch-up sent to a joining
peer starts with an `EntitySpawn` carrying id 0. -/
theorem claim_C10 :
    (EntityManager.default.counter = 0) ∧
    (∀ (m : EntityManager) (pos : Vec2) (sc sp rot : Nat) (d : Vec2) (spr : SpriteName)
        (k : EntityKind),
      (m.spawn pos sc sp rot d spr k).2 = m.counter ∧
      (m.spawn pos sc sp rot d spr k).1.counter = wrap32 (m.counter + 1)) ∧
    (∀ (m : EntityManager) (id : Int) (m1 : EntityManager), m.destroy id = .ok m1 →
      m1.counter = m.counter ∧ m1.entities.map Prod.fst = m.entities.map Prod.fst) ∧
    (∀ (ops : List MOp) (m' : EntityManager) (ids : List Int),
      runOps EntityManager.default ops = .ok (m', ids) → spawnCount ops < 2147483648 →
      ids = (List.range (spawnCount ops)).map (fun n : Nat => (n : Int))) ∧
    (∀ (p0 : Vec2) (ps : List Vec2),
      (makeForest EntityManager.default (p0 :: ps)).iter.head? = some (0, treeEnt p0)) ∧
    (∀ (p0 : Vec2) (ps : List Vec2) (p : Packet) (addr : Addr) (st' : ServerState)
        (sends : List (Packet × Addr)),
      readPacketAndUpdateWorld ⟨[], makeForest EntityManager.default (p0 :: ps), []⟩ p addr =
        .ok (st', sends) →
      sends.head? = some (spawnPacketOf 0 (treeEnt p0), addr)) ∧
    (∀ (pids : List (Addr × Int)) (addr : Addr), resolveId pids addr 0 = alIndex pids addr) := by
  have hhead : ∀ (p0 : Vec2) (ps : List Vec2),
      (makeForest EntityManager.default (p0 :: ps)).iter.head? = some (0, treeEnt p0) := by
    intro p0 ps
    obtain ⟨l, hl⟩ := makeForest_entities ps
      ((EntityManager.default).spawn p0 1090519040 0 0 ⟨0, 0⟩ SpriteName.None EntityKind.Forest).1
    unfold makeForest
    rw [List.foldl_cons]
    unfold makeForest at hl
    rw [EntityManager.iter, hl]
    simp [EntityManager.default, EntityManager.spawn, EntityManager.emplaceEntity, treeEnt,
      List.filter_cons]
  refine ⟨rfl, fun m pos sc sp rot d spr k => ⟨rfl, rfl⟩, destroy_preserves, ?_, hhead, ?_, ?_⟩
  · intro ops m' ids hrun hcnt
    have := runOps_ids ops EntityManager.default m' ids (by simp [EntityManager.default])
      (by simpa [EntityManager.default] using hcnt) hrun
    rw [this]
    apply List.map_congr_left
    intro a ha
    simp [EntityManager.default]
  · intro p0 ps p addr st' sends hok
    obtain ⟨rest, hsends, -, -⟩ :=
      readPacket_new ⟨[], makeForest EntityManager.default (p0 :: ps), []⟩ p addr rfl
        st' sends hok
    rw [hsends]
    have h1 := hhead p0 ps
    show (List.map (fun x => (spawnPacketOf x.1 x.2, addr))
        (makeForest EntityManager.default (p0 :: ps)).iter ++ rest).head? =
      some (spawnPacketOf 0 (treeEnt p0), addr)
    cases hit : (makeForest EntityManager.default (p0 :: ps)).iter with
    | nil =>
      rw [hit] at h1
      cases h1
    | cons a l =>
      rw [hit] at h1
      simp only [List.head?_cons, Option.some.injEq] at h1
      subst h1
      simp
  · intro pids addr
    rfl

/-- Witness for C10: spawn, destroy id 0, spawn again — the returned
ids are consecutively 0, 1; a destroy keeps counter and id list; the
forest server's catch-up to a joining peer starts with an
`EntitySpawn` for id 0. -/
theorem claim_C10_witness :
    (wMgr1.destroy 0 = .ok wMgr1d ∧ wMgr1d.counter = wMgr1.counter ∧
      wMgr1d.entities.map Prod.fst = wMgr1.entities.map Prod.fst) ∧
    (runOps EntityManager.default wOps = .ok wRunRes ∧ spawnCount wOps < 2147483648 ∧
      wRunRes.2 = (List.range (spawnCount wOps)).map (fun n : Nat => (n : Int))) ∧
    (readPacketAndUpdateWorld wForestSt ⟨opPong, []⟩ wAddrNew = .ok wForestRes ∧
      wForestRes.2.head? = some (spawnPacketOf 0 (treeEnt ⟨1, 1⟩), wAddrNew)) :=
  ⟨⟨rfl, (claim_C10.2.2.1 wMgr1 0 wMgr1d rfl).1, (claim_C10.2.2.1 wMgr1 0 wMgr1d rfl).2⟩,
    ⟨rfl, by decide, claim_C10.2.2.2.1 wOps wRunRes.1 wRunRes.2 rfl (by decide)⟩,
    ⟨rfl, claim_C10.2.2.2.2.2.1 ⟨1, 1⟩ [⟨2, 2⟩] ⟨opPong, []⟩ wAddrNew wForestRes.1
      wForestRes.2 rfl⟩⟩

/-! ## C2: client id translation -/

theorem alLookup_cons {κ β : Type} [DecidableEq κ] (x : κ × β) (l : List (κ × β)) (k : κ) :
    alLookup (x :: l) k = if x.1 = k then some x.2 else alLookup l k := by
  unfold alLookup
  by_cases h : x.1 = k <;> simp [List.find?_cons, h]

theorem find_append_fresh {κ β : Type} [DecidableEq κ] (l : List (κ × β)) (k : κ) (v : β)
    (h : ∀ x ∈ l, x.1 ≠ k) :
    (l ++ [(k, v)]).find? (fun x => x.1 = k) = some (k, v) := by
  induction l with
  | nil => simp [List.find?_cons]
  | cons x xs ih =>
    rw [List.cons_append, List.find?_cons]
    have hx : x.1 ≠ k := h x (by simp)
    simp only [decide_eq_false hx]
    exact ih fun y hy => h y (by simp [hy])

theorem alLookup_append_fresh {κ β : Type} [DecidableEq κ] (l : List (κ × β)) (k : κ) (v : β)
    (h : ∀ x ∈ l, x.1 ≠ k) :
    alLookup (l ++ [(k, v)]) k = some v := by
  unfold alLookup
  rw [find_append_fresh l k v h]
  rfl

theorem alLookup_map_replace {κ β : Type} [DecidableEq κ] (l : List (κ × β)) (k : κ) (v : β)
    (h : l.any (fun x => x.1 = k) = true) :
    alLookup (l.map (fun x => if x.1 = k then (k, v) else x)) k = some v := by
  induction l with
  | nil => cases h
  | cons x xs ih =>
    simp only [List.any_cons, Bool.or_eq_true] at h
    by_cases hx : x.1 = k
    · simp [alLookup, List.find?_cons, hx]
    · rw [List.map_cons, if_neg hx, alLookup_cons, if_neg hx]
      refine ih ?_
      rcases h with h | h
      · exact absurd (by simpa using h) hx
      · exact h

theorem alLookup_alInsert_self {κ β : Type} [DecidableEq κ] (l : List (κ × β)) (k : κ)
    (v : β) : alLookup (alInsert l k v) k = some v := by
  unfold alInsert
  split
  · next h => exact alLookup_map_replace l k v h
  · next h =>
    refine alLookup_append_fresh l k v fun x hx heq => ?_
    rw [List.any_eq_true] at h
    exact h ⟨x, hx, by simp [heq]⟩

theorem set_append_last {α : Type} (l : List α) (x y : α) :
    (l ++ [x]).set l.length y = l ++ [y] := by
  induction l with
  | nil => rfl
  | cons a as ih => simp [List.set, ih]

theorem killFirst_append_fresh (old : List (Int × EEntity)) (k : Int) (v : EEntity)
    (h : ∀ x ∈ old, x.1 ≠ k) :
    killFirst k (old ++ [(k, v)]) = old ++ [(k, v.kill)] := by
  induction old with
  | nil => simp [killFirst]
  | cons x xs ih =>
    rw [List.cons_append]
    unfold killFirst
    rw [if_neg (h x (by simp)), ih fun y hy => h y (by simp [hy])]
    rfl

theorem get_append_fresh (sprites : List SpriteName) (c : Int)
    (old : List (Int × EEntity)) (lid : Int) (ent : EEntity)
    (hfresh : ∀ x ∈ old, x.1 ≠ lid) (h0 : 0 ≤ lid) (hlen : old.length = lid.toNat) :
    EntityManager.get ⟨sprites, old ++ [(lid, ent)], c⟩ lid = .ok ent := by
  unfold EntityManager.get
  rw [find_append_fresh old lid ent hfresh]
  have hcond : 0 ≤ lid ∧ lid.toNat < (old ++ [(lid, ent)]).length := by
    simp only [List.length_append, List.length_cons, List.length_nil]
    omega
  show (if h : 0 ≤ lid ∧ lid.toNat < (old ++ [(lid, ent)]).length then
      RRes.ok ((old ++ [(lid, ent)]).get ⟨lid.toNat, h.2⟩).2 else RRes.panic) = .ok ent
  rw [dif_pos hcond]
  have hget : (old ++ [(lid, ent)]).get ⟨lid.toNat, hcond.2⟩ = (lid, ent) := by
    rw [List.get_eq_getElem]
    exact List.getElem_concat_length old (lid, ent) lid.toNat hlen.symm hcond.2
  rw [hget]

theorem modifyAt_append_fresh (sprites : List SpriteName) (c : Int)
    (old : List (Int × EEntity)) (lid : Int) (ent : EEntity) (f : EEntity → EEntity)
    (hfresh : ∀ x ∈ old, x.1 ≠ lid) (h0 : 0 ≤ lid) (hlen : old.length = lid.toNat) :
    EntityManager.modifyAt ⟨sprites, old ++ [(lid, ent)], c⟩ lid f =
      .ok ⟨sprites, old ++ [(lid, f ent)], c⟩ := by
  unfold EntityManager.modifyAt
  rw [find_append_fresh old lid ent hfresh]
  have hcond : 0 ≤ lid ∧ lid.toNat < (old ++ [(lid, ent)]).length := by
    simp only [List.length_append, List.length_cons, List.length_nil]
    omega
  show (if h : 0 ≤ lid ∧ lid.toNat < (old ++ [(lid, ent)]).length then
      RRes.ok (EntityManager.mk sprites
        ((old ++ [(lid, ent)]).set lid.toNat
          (((old ++ [(lid, ent)]).get ⟨lid.toNat, h.2⟩).1,
            f ((old ++ [(lid, ent)]).get ⟨lid.toNat, h.2⟩).2))
        c)
    else RRes.panic) = .ok ⟨sprites, old ++ [(lid, f ent)], c⟩
  rw [dif_pos hcond]
  have hget : (old ++ [(lid, ent)]).get ⟨lid.toNat, hcond.2⟩ = (lid, ent) := by
    rw [List.get_eq_getElem]
    exact List.getElem_concat_length old (lid, ent) lid.toNat hlen.symm hcond.2
  rw [hget, ← hlen, set_append_last]

theorem destroy_append_fresh (sprites : List SpriteName) (c : Int)
    (old : List (Int × EEntity)) (lid : Int) (ent : EEntity)
    (hfresh : ∀ x ∈ old, x.1 ≠ lid) :
    EntityManager.destroy ⟨sprites, old ++ [(lid, ent)], c⟩ lid =
      .ok ⟨sprites, old ++ [(lid, ent.kill)], c⟩ := by
  unfold EntityManager.destroy
  rw [if_pos (by simp [List.any_append]), killFirst_append_fresh old lid ent hfresh]

/-- C2 counterexample: after `EntitySpawn{id=5}` then `EntityDestroy{id=5}`
the local entity is dead, but the translation-table entry for 5 is *not*
removed: the mapping still resolves (to local id 0). -/
theorem claim_C2_counterexample :
    clientHandlePacket f0 wCliSt0 wSpawnP = .ok wCliSt1 ∧
    clientHandlePacket f0 wCliSt1 wDestP = .ok wCliSt2 ∧
    alLookup wCliSt2.serverToLocalId 5 = some 0 ∧
    (∃ ent, alLookup wCliSt2.ents.entities 0 = some ent ∧ ent.alive = false) :=
  ⟨rfl, rfl, rfl, ⟨_, rfl, rfl⟩⟩

/-- C2 (amended): on the client, `EntitySpawn{id=S}` creates a local
entity and inserts `S → local_id` into the translation table; a later
`EntityUpdate{id=S}` is applied to that same local entity (as a
direction change toward the sent position); after `EntityDestroy{id=S}`
the local entity is marked dead but the table entry for `S` is *kept*:
the mapping for `S` still resolves, now to a dead local entity. -/
theorem claim_C2 (fsub : Vec2 → Vec2 → Vec2) (st : ClientState) (e : EntitySpawn) (q : Vec2)
    (hwf : st.ents.entities.map Prod.fst =
      (List.range st.ents.counter.toNat).map (fun n : Nat => (n : Int)))
    (hc0 : 0 ≤ st.ents.counter) (he : e.Valid) (hq : q.Valid) :
    ∃ st1 st2 st3 ent1 ent2 ent3,
      clientHandlePacket fsub st e.toPacket = .ok st1 ∧
      alLookup st1.serverToLocalId e.id = some st.ents.counter ∧
      alLookup st1.ents.entities st.ents.counter = some ent1 ∧
      ent1.alive = true ∧ ent1.pos = e.pos ∧
      clientHandlePacket fsub st1 (EntityUpdate.toPacket ⟨e.id, q⟩) = .ok st2 ∧
      alLookup st2.ents.entities st.ents.counter = some ent2 ∧
      ent2.dir = fsub q e.pos ∧ ent2.alive = true ∧
      clientHandlePacket fsub st2 (EntityDestroy.toPacket ⟨e.id⟩) = .ok st3 ∧
      alLookup st3.ents.entities st.ents.counter = some ent3 ∧
      ent3.alive = false ∧
      alLookup st3.serverToLocalId e.id = some st.ents.counter := by
  obtain ⟨heid, hepos, hesc, hesp, hedir⟩ := he
  have hlen : st.ents.entities.length = st.ents.counter.toNat := by
    have h := congrArg List.length hwf
    simpa using h
  have hfresh : ∀ x ∈ st.ents.entities, x.1 ≠ st.ents.counter := by
    intro x hx heq
    have hmem : x.1 ∈ st.ents.entities.map Prod.fst := List.mem_map_of_mem Prod.fst hx
    rw [hwf] at hmem
    simp only [List.mem_map, List.mem_range] at hmem
    obtain ⟨i, hi, hcast⟩ := hmem
    have h1 : (i : Int) < (st.ents.counter.toNat : Int) := by exact_mod_cast hi
    rw [Int.toNat_of_nonneg hc0] at h1
    rw [heq] at hcast
    omega
  have hdec1 : RRes.unwrap (EntitySpawn.tryFrom e.toPacket) = .ok e := by
    rw [spawn_roundtrip e ⟨heid, hepos, hesc, hesp, hedir⟩]
    rfl
  have hop1 : e.toPacket.opcode = opEntitySpawn := rfl
  have hstep1 : clientHandlePacket fsub st e.toPacket =
      .ok ⟨⟨st.ents.sprites,
          st.ents.entities ++ [(st.ents.counter,
            ⟨true, e.pos, e.scale, e.speed, 0, e.dir,
              (if spriteFor e.kind ∈ st.ents.sprites then some (spriteFor e.kind) else none),
              e.kind⟩)],
          wrap32 (st.ents.counter + 1)⟩,
        alInsert st.serverToLocalId e.id st.ents.counter,
        st.timeoutTimer⟩ := by
    unfold clientHandlePacket
    rw [if_neg (by rw [hop1]; decide), if_pos hop1, hdec1]
    rfl
  have hlook1 : alLookup (alInsert st.serverToLocalId e.id st.ents.counter) e.id =
      some st.ents.counter := alLookup_alInsert_self _ _ _
  have hidx1 : alIndex (alInsert st.serverToLocalId e.id st.ents.counter) e.id =
      .ok st.ents.counter := by
    unfold alIndex
    rw [hlook1]
  have hlookA : alLookup
      (st.ents.entities ++ [(st.ents.counter,
        (⟨true, e.pos, e.scale, e.speed, 0, e.dir,
          (if spriteFor e.kind ∈ st.ents.sprites then some (spriteFor e.kind) else none),
          e.kind⟩ : EEntity))]) st.ents.counter =
      some ⟨true, e.pos, e.scale, e.speed, 0, e.dir,
        (if spriteFor e.kind ∈ st.ents.sprites then some (spriteFor e.kind) else none),
        e.kind⟩ :=
    alLookup_append_fresh _ _ _ hfresh
  have hdec2 : RRes.unwrap (EntityUpdate.tryFrom (EntityUpdate.toPacket ⟨e.id, q⟩)) =
      .ok ⟨e.id, q⟩ := by
    rw [update_roundtrip ⟨e.id, q⟩ ⟨heid, hq⟩]
    rfl
  have hop2 : (EntityUpdate.toPacket ⟨e.id, q⟩).opcode = opEntityUpdate := rfl
  have hget1 : EntityManager.get
      ⟨st.ents.sprites,
        st.ents.entities ++ [(st.ents.counter,
          ⟨true, e.pos, e.scale, e.speed, 0, e.dir,
            (if spriteFor e.kind ∈ st.ents.sprites then some (spriteFor e.kind) else none),
            e.kind⟩)],
        wrap32 (st.ents.counter + 1)⟩ st.ents.counter =
      .ok ⟨true, e.pos, e.scale, e.speed, 0, e.dir,
        (if spriteFor e.kind ∈ st.ents.sprites then some (spriteFor e.kind) else none),
        e.kind⟩ :=
    get_append_fresh _ _ _ _ _ hfresh hc0 hlen
  have hmod1 : EntityManager.modifyAt
      ⟨st.ents.sprites,
        st.ents.entities ++ [(st.ents.counter,
          ⟨true, e.pos, e.scale, e.speed, 0, e.dir,
            (if spriteFor e.kind ∈ st.ents.sprites then some (spriteFor e.kind) else none),
            e.kind⟩)],
        wrap32 (st.ents.counter + 1)⟩ st.ents.counter
      (fun x => { x with dir := fsub q e.pos }) =
      .ok ⟨st.ents.sprites,
        st.ents.entities ++ [(st.ents.counter,
          ⟨true, e.pos, e.scale, e.speed, 0, fsub q e.pos,
            (if spriteFor e.kind ∈ st.ents.sprites then some (spriteFor e.kind) else none),
            e.kind⟩)],
        wrap32 (st.ents.counter + 1)⟩ :=
    modifyAt_append_fresh _ _ _ _ _ _ hfresh hc0 hlen
  have hstep2 : clientHandlePacket fsub
      ⟨⟨st.ents.sprites,
          st.ents.entities ++ [(st.ents.counter,
            ⟨true, e.pos, e.scale, e.speed, 0, e.dir,
              (if spriteFor e.kind ∈ st.ents.sprites then some (spriteFor e.kind) else none),
              e.kind⟩)],
          wrap32 (st.ents.counter + 1)⟩,
        alInsert st.serverToLocalId e.id st.ents.counter,
        st.timeoutTimer⟩ (EntityUpdate.toPacket ⟨e.id, q⟩) =
      .ok ⟨⟨st.ents.sprites,
          st.ents.entities ++ [(st.ents.counter,
            ⟨true, e.pos, e.scale, e.speed, 0, fsub q e.pos,
              (if spriteFor e.kind ∈ st.ents.sprites then some (spriteFor e.kind) else none),
              e.kind⟩)],
          wrap32 (st.ents.counter + 1)⟩,
        alInsert st.serverToLocalId e.id st.ents.counter,
        st.timeoutTimer⟩ := by
    unfold clientHandlePacket
    rw [if_neg (by rw [hop2]; decide), if_neg (by rw [hop2]; decide), if_pos hop2, hdec2]
    simp only [RRes.bind_ok]
    rw [hidx1]
    simp only [RRes.bind_ok]
    rw [hget1]
    simp only [RRes.bind_ok]
    rw [hmod1]
    rfl
  have hlookB : alLookup
      (st.ents.entities ++ [(st.ents.counter,
        (⟨true, e.pos, e.scale, e.speed, 0, fsub q e.pos,
          (if spriteFor e.kind ∈ st.ents.sprites then some (spriteFor e.kind) else none),
          e.kind⟩ : EEntity))]) st.ents.counter =
      some ⟨true, e.pos, e.scale, e.speed, 0, fsub q e.pos,
        (if spriteFor e.kind ∈ st.ents.sprites then some (spriteFor e.kind) else none),
        e.kind⟩ :=
    alLookup_append_fresh _ _ _ hfresh
  have hdec3 : RRes.unwrap (EntityDestroy.tryFrom (EntityDestroy.toPacket ⟨e.id⟩)) =
      .ok ⟨e.id⟩ := by
    rw [destroy_roundtrip ⟨e.id⟩ heid]
    rfl
  have hop3 : (EntityDestroy.toPacket ⟨e.id⟩).opcode = opEntityDestroy := rfl
  have hdes : EntityManager.destroy
      ⟨st.ents.sprites,
        st.ents.entities ++ [(st.ents.counter,
          ⟨true, e.pos, e.scale, e.speed, 0, fsub q e.pos,
            (if spriteFor e.kind ∈ st.ents.sprites then some (spriteFor e.kind) else none),
            e.kind⟩)],
        wrap32 (st.ents.counter + 1)⟩ st.ents.counter =
      .ok ⟨st.ents.sprites,
        st.ents.entities ++ [(st.ents.counter,
          ⟨false, e.pos, e.scale, e.speed, 0, fsub q e.pos,
            (if spriteFor e.kind ∈ st.ents.sprites then some (spriteFor e.kind) else none),
            e.kind⟩)],
        wrap32 (st.ents.counter + 1)⟩ :=
    destroy_append_fresh _ _ _ _ _ hfresh
  have hstep3 : clientHandlePacket fsub
      ⟨⟨st.ents.sprites,
          st.ents.entities ++ [(st.ents.counter,
            ⟨true, e.pos, e.scale, e.speed, 0, fsub q e.pos,
              (if spriteFor e.kind ∈ st.ents.sprites then some (spriteFor e.kind) else none),
              e.kind⟩)],
          wrap32 (st.ents.counter + 1)⟩,
        alInsert st.serverToLocalId e.id st.ents.counter,
        st.timeoutTimer⟩ (EntityDestroy.toPacket ⟨e.id⟩) =
      .ok ⟨⟨st.ents.sprites,
          st.ents.entities ++ [(st.ents.counter,
            ⟨false, e.pos, e.scale, e.speed, 0, fsub q e.pos,
              (if spriteFor e.kind ∈ st.ents.sprites then some (spriteFor e.kind) else none),
              e.kind⟩)],
          wrap32 (st.ents.counter + 1)⟩,
        alInsert st.serverToLocalId e.id st.ents.counter,
        st.timeoutTimer⟩ := by
    unfold clientHandlePacket
    rw [if_neg (by rw [hop3]; decide), if_neg (by rw [hop3]; decide),
      if_neg (by rw [hop3]; decide), if_pos hop3, hdec3]
    simp only [RRes.bind_ok]
    rw [hidx1]
    simp only [RRes.bind_ok]
    rw [hdes]
    rfl
  have hlookC : alLookup
      (st.ents.entities ++ [(st.ents.counter,
        (⟨false, e.pos, e.scale, e.speed, 0, fsub q e.pos,
          (if spriteFor e.kind ∈ st.ents.sprites then some (spriteFor e.kind) else none),
          e.kind⟩ : EEntity))]) st.ents.counter =
      some ⟨false, e.pos, e.scale, e.speed, 0, fsub q e.pos,
        (if spriteFor e.kind ∈ st.ents.sprites then some (spriteFor e.kind) else none),
        e.kind⟩ :=
    alLookup_append_fresh _ _ _ hfresh
  exact ⟨_, _, _, _, _, _, hstep1, hlook1, hlookA, rfl, rfl, hstep2, hlookB, rfl, rfl,
    hstep3, hlookC, rfl, hlook1⟩

/-- Witness for C2 on a fresh client and server id 5. -/
theorem claim_C2_witness :
    (wCliSt0.ents.entities.map Prod.fst =
      (List.range wCliSt0.ents.counter.toNat).map (fun n : Nat => (n : Int))) ∧
    ((0 : Int) ≤ wCliSt0.ents.counter) ∧
    EntitySpawn.Valid ⟨5, EntityKind.Player, ⟨1, 2⟩, 3, 4, ⟨0, 0⟩⟩ ∧
    Vec2.Valid ⟨7, 8⟩ ∧
    (∃ st1 st2 st3 ent1 ent2 ent3,
      clientHandlePacket f0 wCliSt0
          (EntitySpawn.toPacket ⟨5, EntityKind.Player, ⟨1, 2⟩, 3, 4, ⟨0, 0⟩⟩) = .ok st1 ∧
      alLookup st1.serverToLocalId 5 = some wCliSt0.ents.counter ∧
      alLookup st1.ents.entities wCliSt0.ents.counter = some ent1 ∧
      ent1.alive = true ∧ ent1.pos = ⟨1, 2⟩ ∧
      clientHandlePacket f0 st1 (EntityUpdate.toPacket ⟨5, ⟨7, 8⟩⟩) = .ok st2 ∧
      alLookup st2.ents.entities wCliSt0.ents.counter = some ent2 ∧
      ent2.dir = f0 ⟨7, 8⟩ ⟨1, 2⟩ ∧ ent2.alive = true ∧
      clientHandlePacket f0 st2 (EntityDestroy.toPacket ⟨5⟩) = .ok st3 ∧
      alLookup st3.ents.entities wCliSt0.ents.counter = some ent3 ∧
      ent3.alive = false ∧
      alLookup st3.serverToLocalId 5 = some wCliSt0.ents.counter) :=
  ⟨rfl, by decide, by decide, by decide,
    claim_C2 f0 wCliSt0 ⟨5, EntityKind.Player, ⟨1, 2⟩, 3, 4, ⟨0, 0⟩⟩ ⟨7, 8⟩ rfl
      (by decide) (by decide) (by decide)⟩

/-! ## C1: session timeout eviction -/

/-- C1, evaluated at the failing input: peer A (owner of player entity
1) times out while peer B stays.  The code removes A's session, forgets
A's player-id binding and broadcasts `EntityDestroy{id=1}` to the
remaining session B — but it never destroys entity 1 in the
authoritative store: after the tick the store still contains entity 1,
alive (server.rs `tick` lacks the `ents.destroy(id)` the spec's
scenario requires). -/
theorem claim_C1 :
    serverTick wTickSt 1 (fun e => e.pos) (fun _ => false) = .ok wTickRes ∧
    alLookup wTickRes.1.clients wAddrA = none ∧
    alLookup wTickRes.1.playerIds wAddrA = none ∧
    (∃ t, alLookup wTickRes.1.clients wAddrB = some t) ∧
    wTickRes.2 = [(EntityDestroy.toPacket ⟨1⟩, wAddrB)] ∧
    (∃ ent, alLookup wTickRes.1.ents.entities 1 = some ent ∧ ent.alive = true) ∧
    (1, wPlayerEnt) ∈ wTickRes.1.ents.iter :=
  ⟨rfl, rfl, rfl, ⟨_, rfl⟩, rfl, ⟨_, rfl, rfl⟩, by decide⟩

end DeerDefense
